import Mathlib

/-!
Verification of the load-tester core of `demo_load_tester.py` (Twitter clone
load tester).  Python strings are embedded as `List Char`, floats as `ℚ`,
dataclasses as structures, and the asynchronous scenario as explicit state
passing over an injected transport.  All definitions are translated from the
source file `src/load-test/demo_load_tester.py`; definitions whose doc comment
starts with "Modelled from the spec" render a sentence of the specification
instead, for comparison against the source.
-/

/-- Python strings are modelled as lists of characters. -/
abbrev Str := List Char

/-- The character `{` (written via its code point to keep it out of literals). -/
def lbraceC : Char := Char.ofNat 123

/-- The character `}`. -/
def rbraceC : Char := Char.ofNat 125

/-- The path separator `/`. -/
def slashC : Char := Char.ofNat 47

/-- The query separator `?`. -/
def qmarkC : Char := Char.ofNat 63

/-- `leadsList p s` holds when `p` is a prefix of `s` (Boolean version, used to
locate occurrences for Python's `str.replace`). -/
def leadsList : Str → Str → Bool
  | [], _ => true
  | _ :: _, [] => false
  | a :: as, b :: bs => a == b && leadsList as bs

/-- Python's `str.replace(pat, rep)`: replace every non-overlapping occurrence
of `pat`, scanning left to right.  For the (unreachable in this development)
empty pattern the string is returned unchanged, whereas Python would interleave
`rep`; every call site guards `pat ≠ []`. -/
def replaceAll (pat rep : Str) : Str → Str
  | [] => []
  | c :: cs =>
    if leadsList pat (c :: cs) ∧ pat ≠ [] then
      rep ++ replaceAll pat rep ((c :: cs).drop pat.length)
    else
      c :: replaceAll pat rep cs
termination_by s => s.length
decreasing_by
  · rename_i h
    have hp : 0 < pat.length := List.length_pos.mpr h.2
    simp only [List.length_drop, List.length_cons]
    omega
  · simp

/-- Python's `str.split(sep)` for a one-character separator.  The result is
always non-empty; splitting the empty string yields `[ [] ]`. -/
def pySplit (sep : Char) : Str → List Str
  | [] => [[]]
  | c :: cs =>
    if c = sep then [] :: pySplit sep cs
    else
      match pySplit sep cs with
      | t :: ts => (c :: t) :: ts
      | [] => [[c]]

/-- Membership of a character in the brace set, for Python's `strip('{}')`. -/
def isBraceC (c : Char) : Bool := c == lbraceC || c == rbraceC

/-- Python's `str.strip('{}')`: drop leading and trailing brace characters. -/
def stripBraces (s : Str) : Str :=
  ((s.dropWhile isBraceC).reverse.dropWhile isBraceC).reverse

/-- Hexadecimal digit test, as accepted by Python's `int(_, 16)`. -/
def isHexDig (c : Char) : Bool :=
  (('0' ≤ c ∧ c ≤ '9') ∨ ('a' ≤ c ∧ c ≤ 'f') ∨ ('A' ≤ c ∧ c ≤ 'F') : Bool)

/-- Python `str.isspace` characters relevant to `int()` parsing. -/
def isPySpace (c : Char) : Bool :=
  c == ' ' || c == Char.ofNat 9 || c == Char.ofNat 10 || c == Char.ofNat 11 ||
  c == Char.ofNat 12 || c == Char.ofNat 13

/-- Tail of a base-16 digit string for `int(_, 16)`: hex digits with single
underscores allowed only between digits. -/
def hexTail : Str → Bool
  | [] => true
  | '_' :: c :: cs => isHexDig c && hexTail cs
  | c :: cs => isHexDig c && hexTail cs

/-- Non-empty base-16 digit run (first character must be a digit). -/
def hexDigits : Str → Bool
  | [] => false
  | c :: cs => isHexDig c && hexTail cs

/-- Body of an `int(_, 16)` literal after sign removal: either `0x`/`0X`
prefixed (with one optional leading underscore in the digits) or a plain digit
run. -/
def int16Body : Str → Bool
  | '0' :: 'x' :: rest =>
    (match rest with
     | '_' :: r => hexDigits r
     | r => hexDigits r)
  | '0' :: 'X' :: rest =>
    (match rest with
     | '_' :: r => hexDigits r
     | r => hexDigits r)
  | s => hexDigits s

/-- Acceptance of Python's `int(s, 16)`: optional surrounding whitespace, an
optional sign, then a base-16 body. -/
def int16Ok (s : Str) : Bool :=
  let s1 := s.dropWhile isPySpace
  let s2 := ((s1.reverse.dropWhile isPySpace).reverse)
  match s2 with
  | '+' :: r => int16Body r
  | '-' :: r => int16Body r
  | r => int16Body r

/-- The hex-extraction performed by `uuid.UUID(str)`:
`hex.replace('urn:', '').replace('uuid:', '').strip('{}').replace('-', '')`. -/
def uuidCleanup (s : Str) : Str :=
  replaceAll [dashC] [] (stripBraces (replaceAll uuidColon [] (replaceAll urnColon [] s)))
where
  dashC : Char := Char.ofNat 45
  urnColon : Str := ("urn:").data
  uuidColon : Str := ("uuid:").data

/-- Whether `uuid.UUID(segment)` succeeds: the cleaned-up hex must have length
32 and parse under `int(_, 16)`. -/
def pyUUIDOk (s : Str) : Bool :=
  (uuidCleanup s).length == 32 && int16Ok (uuidCleanup s)

/-- The replacement token `{id}` inserted for identifier segments. -/
def idTok : Str := [lbraceC, 'i', 'd', rbraceC]

/-- `endpoint.split('?')[0]` from `LoadTester.api_call`. -/
def stripQuery (s : Str) : Str := (pySplit qmarkC s).headD []

/-- The endpoint-to-bucket-key normalization of `LoadTester.api_call`:
strip the query string, then for each `/`-separated segment of the original
key that `uuid.UUID` accepts, replace every occurrence of that segment's text
in the evolving key by `{id}`. -/
def normalizeEndpoint (endpoint : Str) : Str :=
  let key := stripQuery endpoint
  (pySplit slashC key).foldl
    (fun acc seg => if pyUUIDOk seg then replaceAll seg idTok acc else acc) key

/-- The per-segment step of `normalizeEndpoint`'s loop, named for reasoning:
if `uuid.UUID` accepts the segment, replace its occurrences in the evolving
key by `\x7bid\x7d`. -/
def normStep (acc seg : Str) : Str :=
  if pyUUIDOk seg then replaceAll seg idTok acc else acc

/-- All characters are hexadecimal digits. -/
def allHex (s : Str) : Bool := s.all isHexDig

/-- The canonical dashed 8-4-4-4-12 rendering of a UUID from its five digit
groups, as produced by `str(uuid.uuid4())`. -/
def canonUUID (d1 d2 d3 d4 d5 : Str) : Str :=
  d1 ++ uuidCleanup.dashC ::
    (d2 ++ uuidCleanup.dashC :: (d3 ++ uuidCleanup.dashC :: (d4 ++ uuidCleanup.dashC :: d5)))

/-- The five groups form a well-shaped canonical UUID: lengths 8, 4, 4, 4, 12
and hexadecimal digits throughout. -/
def canonParts (d1 d2 d3 d4 d5 : Str) : Prop :=
  d1.length = 8 ∧ d2.length = 4 ∧ d3.length = 4 ∧ d4.length = 4 ∧ d5.length = 12 ∧
  allHex d1 = true ∧ allHex d2 = true ∧ allHex d3 = true ∧ allHex d4 = true ∧
  allHex d5 = true

/-! ## Latency statistics (EndpointStats, MetricsCollector) -/

/-- Python's `sorted` on latency lists: the ascending reordering (insertion
sort; for a linear order this is the unique sorted permutation, so it agrees
with Python's stable sort). -/
def pySorted (l : List ℚ) : List ℚ := List.insertionSort (fun a b => a ≤ b) l

/-- `statistics.median`: middle element of the sorted list for odd length,
mean of the two middle elements for even length.  (`statistics.median` raises
on an empty list; the `p50` property below guards emptiness first, so the `0`
default is unreachable from the embedded code.) -/
def pyMedian (l : List ℚ) : ℚ :=
  let s := pySorted l
  let n := s.length
  if n = 0 then 0
  else if n % 2 = 1 then s.getD (n / 2) 0
  else (s.getD (n / 2 - 1) 0 + s.getD (n / 2) 0) / 2

/-- The `RequestMetrics` dataclass. -/
structure RequestMetrics where
  endpoint : Str
  method : Str
  status : Nat
  latency_ms : ℚ
  success : Bool
  error : Option Str
deriving DecidableEq

/-- The `EndpointStats` dataclass (its `errors` defaultdict is an insertion
ordered association list). -/
structure EndpointStats where
  total : Nat
  success : Nat
  failed : Nat
  latencies : List ℚ
  errors : List (Str × Nat)
deriving DecidableEq

/-- Default-constructed `EndpointStats()`, as produced by the
`defaultdict(EndpointStats)` in `MetricsCollector`. -/
def emptyStats : EndpointStats := ⟨0, 0, 0, [], []⟩

/-- `EndpointStats.success_rate`. -/
def EndpointStats.success_rate (s : EndpointStats) : ℚ :=
  if s.total > 0 then (s.success : ℚ) / (s.total : ℚ) * 100 else 0

/-- `EndpointStats.p50` (`statistics.median(latencies) if latencies else 0`). -/
def EndpointStats.p50 (s : EndpointStats) : ℚ :=
  if s.latencies = [] then 0 else pyMedian s.latencies

/-- `EndpointStats.p95`: `sorted_lat[min(int(len(sorted_lat) * 0.95), len - 1)]`.
The float product `len * 0.95` is rendered as exact rational arithmetic,
`len * 95 / 100` (the double rounding of `0.95` never changes the floor at
these magnitudes). -/
def EndpointStats.p95 (s : EndpointStats) : ℚ :=
  if s.latencies = [] then 0
  else
    let sorted_lat := pySorted s.latencies
    sorted_lat.getD (min (sorted_lat.length * 95 / 100) (sorted_lat.length - 1)) 0

/-- `EndpointStats.p99`, analogous to `p95` with quantile `0.99`. -/
def EndpointStats.p99 (s : EndpointStats) : ℚ :=
  if s.latencies = [] then 0
  else
    let sorted_lat := pySorted s.latencies
    sorted_lat.getD (min (sorted_lat.length * 99 / 100) (sorted_lat.length - 1)) 0

/-- The phase tag `"setup"`. -/
def setupStr : Str := ("setup").data

/-- The phase tag `"runtime"`. -/
def runtimeStr : Str := ("runtime").data

/-- The `MetricsCollector` state.  (`start_time`/`end_time` feed only the
printed duration/TPS figures and are omitted.) -/
structure MetricsCollector where
  requests : List RequestMetrics
  by_endpoint : List (Str × EndpointStats)
  phase : Str
  setup_requests : List RequestMetrics
  runtime_requests : List RequestMetrics
deriving DecidableEq

/-- `MetricsCollector.__init__`. -/
def MetricsCollector.init : MetricsCollector := ⟨[], [], setupStr, [], []⟩

/-- `MetricsCollector.set_phase`. -/
def MetricsCollector.set_phase (m : MetricsCollector) (p : Str) : MetricsCollector :=
  { m with phase := p }

/-- Python `dict` update `d[k] = v`: overwrite the existing entry in place, or
append a new one (insertion order). -/
def dictSet {α : Type} (d : List (Str × α)) (k : Str) (v : α) : List (Str × α) :=
  match d with
  | [] => [(k, v)]
  | (k', v') :: rest => if k' = k then (k, v) :: rest else (k', v') :: dictSet rest k v

/-- Lookup with default, `d.get(k, dflt)` / `defaultdict` access. -/
def dictGetD {α : Type} (d : List (Str × α)) (k : Str) (dflt : α) : α :=
  match d with
  | [] => dflt
  | (k', v') :: rest => if k' = k then v' else dictGetD rest k dflt

/-- `stats.errors[err_key] += 1` on the `defaultdict(int)`. -/
def bumpError (errors : List (Str × Nat)) (k : Str) : List (Str × Nat) :=
  dictSet errors k (dictGetD errors k 0 + 1)

/-- The string `"unknown"`. -/
def unknownStr : Str := ("unknown").data

/-- `MetricsCollector.record`. -/
def MetricsCollector.record (m : MetricsCollector) (metric : RequestMetrics) :
    MetricsCollector :=
  let m1 : MetricsCollector :=
    { m with
      requests := m.requests ++ [metric]
      setup_requests :=
        if m.phase = setupStr then m.setup_requests ++ [metric] else m.setup_requests
      runtime_requests :=
        if m.phase = setupStr then m.runtime_requests else m.runtime_requests ++ [metric] }
  let key := metric.method ++ (" ").data ++ metric.endpoint
  let stats := dictGetD m1.by_endpoint key emptyStats
  let stats1 : EndpointStats :=
    { stats with total := stats.total + 1, latencies := stats.latencies ++ [metric.latency_ms] }
  let stats2 : EndpointStats :=
    if metric.success then { stats1 with success := stats1.success + 1 }
    else
      let err_key :=
        if metric.status ≠ 0 then (Nat.repr metric.status).data
        else match metric.error with
          | some e => if e = [] then unknownStr else e
          | none => unknownStr
      { stats1 with failed := stats1.failed + 1, errors := bumpError stats1.errors err_key }
  { m1 with by_endpoint := dictSet m1.by_endpoint key stats2 }

/-- The dictionary returned by `MetricsCollector.get_phase_stats`; the
`success_rate` key is absent (`none`) in the empty-phase early return. -/
structure PhaseStats where
  total : Nat
  success : Nat
  failed : Nat
  success_rate : Option ℚ
  p50 : ℚ
  p95 : ℚ
  p99 : ℚ
deriving DecidableEq

/-- `MetricsCollector.get_phase_stats`. -/
def MetricsCollector.get_phase_stats (m : MetricsCollector) (phase : Str) : PhaseStats :=
  let requests := if phase = setupStr then m.setup_requests else m.runtime_requests
  if requests = [] then ⟨0, 0, 0, none, 0, 0, 0⟩
  else
    let latencies := pySorted (requests.map (·.latency_ms))
    let success := (requests.filter (·.success)).length
    ⟨requests.length, success, requests.length - success,
     some ((success : ℚ) / (requests.length : ℚ) * 100),
     latencies.getD (latencies.length / 2) 0,
     latencies.getD (latencies.length * 95 / 100) 0,
     latencies.getD (latencies.length * 99 / 100) 0⟩

/-- `MetricsCollector.total_failed`. -/
def MetricsCollector.total_failed (m : MetricsCollector) : Nat :=
  (m.requests.filter (fun r => !r.success)).length

/-- Modelled from the spec: "quantile queries over n samples use the
convention `index = floor(n * q)`, clamped to `[0, n-1]`; querying an empty
sketch returns zero".  Stated for comparison with the `p50`/`p95`/`p99`
accessors translated from the source. -/
def specQuantile (samples : List ℚ) (q : ℚ) : ℚ :=
  if samples = [] then 0
  else
    let s := pySorted samples
    s.getD (min (Nat.floor ((samples.length : ℚ) * q)) (samples.length - 1)) 0

/-! ## Verdict evaluation (`LoadTester.print_results`, `main`) -/

/-- The `thresholds` section of the configuration. -/
structure Thresholds where
  max_error_rate_percent : ℚ
  max_p95_latency_ms : ℚ
deriving DecidableEq

/-- A failure reason printed inside the FAILED panel.  The panel's strings
`f"Error rate {...}% > {...}%"` and `f"p95 {...}ms > {...}ms"` are rendered
structurally, keeping the measured value and the threshold they cite. -/
inductive Reason where
  | errorRate (measured threshold : ℚ)
  | p95 (measured threshold : ℚ)
deriving DecidableEq

/-- The verdict computation on the rich output path of
`LoadTester.print_results` (lines 620-699): `rate_ok`, `p95_ok`, `passed`,
and the reasons list built when the verdict fails.  Returns `none` when the
runtime phase recorded no requests, in which case the Python code raises
`KeyError` on the missing `'success_rate'` key and never reaches a verdict. -/
def print_results_rich (m : MetricsCollector) (cfg : Thresholds) :
    Option (Bool × List Reason) :=
  let runtime_stats := m.get_phase_stats runtimeStr
  match runtime_stats.success_rate with
  | none => none
  | some runtime_success_rate =>
    let rate_ok : Bool := decide (100 - cfg.max_error_rate_percent ≤ runtime_success_rate)
    let p95_ok : Bool := decide (runtime_stats.p95 < cfg.max_p95_latency_ms)
    let passed := rate_ok && p95_ok
    let reasons : List Reason :=
      if passed then []
      else
        (if rate_ok then [] else
          [Reason.errorRate (100 - runtime_success_rate) cfg.max_error_rate_percent]) ++
        (if p95_ok then [] else
          [Reason.p95 runtime_stats.p95 cfg.max_p95_latency_ms])
    some (passed, reasons)

/-- The fallback (no `rich` library) return of `LoadTester.print_results`
(line 703): `runtime_stats['success_rate'] >= 95`, again `none` (a `KeyError`)
when the runtime phase is empty. -/
def print_results_plain (m : MetricsCollector) : Option Bool :=
  (m.get_phase_stats runtimeStr).success_rate.map (fun sr => decide (95 ≤ sr))

/-- The boolean returned by `LoadTester.print_results` on each output path. -/
def print_results (rich : Bool) (m : MetricsCollector) (cfg : Thresholds) : Option Bool :=
  if rich then (print_results_rich m cfg).map Prod.fst else print_results_plain m

/-- `main`'s `sys.exit(0 if passed else 1)` applied to the result of
`print_results`. -/
def mainExitCode (rich : Bool) (m : MetricsCollector) (cfg : Thresholds) : Option Nat :=
  (print_results rich m cfg).map (fun passed => if passed then 0 else 1)

/-- Modelled from the spec: the verdict formula
"`passed = (error_rate_runtime <= thresholds.max_error_rate_percent) AND
(p95_latency_runtime < thresholds.max_p95_latency)`", for comparison with the
exit statuses actually computed by the source. -/
def specVerdictFormula (error_rate p95 : ℚ) (cfg : Thresholds) : Bool :=
  decide (error_rate ≤ cfg.max_error_rate_percent) && decide (p95 < cfg.max_p95_latency_ms)

/-! ## Transport abstraction and `api_call` -/

/-- A successful transport completion: HTTP status, truthiness of the parsed
payload, the payload's `nextCursor` field (when present), and the two
wall-clock intervals of the call - `permitWait` from the `start` timestamp to
semaphore acquisition and `callDur` from invocation to completion. -/
structure TransportOk where
  status : Nat
  dataTruthy : Bool
  nextCursor : Option Str
  permitWait : ℚ
  callDur : ℚ
deriving DecidableEq

/-- Outcome of one transport invocation: a response, or an exception (timeout
or connection-level error) with its message and the same two intervals. -/
inductive TResult where
  | ok (r : TransportOk)
  | exn (msg : Str) (permitWait : ℚ) (callDur : ℚ)
deriving DecidableEq

/-- A transport collaborator: a state machine fed (method, url, body) and
returning a `TResult`.  This models the injected `aiohttp` session of
`LoadTester`. -/
def Tr (σ : Type) := σ → Str → Str → Option Str → TResult × σ

/-- The dictionary returned by `LoadTester.api_call` to its callers:
`success`, `status`, and the payload view used by the pagination loops
(truthiness of `result.get("data")` and `data.get("nextCursor")`). -/
structure ApiResp where
  success : Bool
  status : Nat
  hasData : Bool
  nextCursor : Option Str
deriving DecidableEq

/-- The mutable state of a `LoadTester` run: collected metrics, transport
state, and the user bookkeeping fields of `LoadTester.__init__`. -/
structure RunState (σ : Type) where
  mc : MetricsCollector
  ts : σ
  regular_users : List Str
  celebrities : List Str
  celebrity_followers : List Str
  all_users : List Str
  follow_graph : List (Str × List Str)

/-- Fresh `LoadTester` state over an initial transport state. -/
def initRunState {σ : Type} (s : σ) : RunState σ :=
  ⟨MetricsCollector.init, s, [], [], [], [], []⟩

/-- `f"HTTP {status}"`. -/
def httpErrStr (status : Nat) : Str := ("HTTP ").data ++ (Nat.repr status).data

/-- `LoadTester.api_call`: normalize the endpoint into a bucket key, invoke
the transport, measure the latency from the `start` timestamp (taken before
the semaphore acquisition) to completion, classify success by membership of
the status in `expected_status`, and record exactly one `RequestMetrics` -
also on the exception path, which returns a failure dictionary instead of
raising.  (The Python default `expected_status=None -> [200]` is applied at
the call sites, all of which pass the list explicitly.) -/
def api_call {σ : Type} (tr : Tr σ) (st : RunState σ)
    (method endpoint _user_id : Str) (body : Option Str) (expected : List Nat) :
    ApiResp × RunState σ :=
  let endpoint_key := normalizeEndpoint endpoint
  match tr st.ts method endpoint body with
  | (.ok r, ts') =>
    let latency_ms := (r.permitWait + r.callDur) * 1000
    let success : Bool := decide (r.status ∈ expected)
    let metric : RequestMetrics :=
      ⟨endpoint_key, method, r.status, latency_ms, success,
       if success then none else some (httpErrStr r.status)⟩
    (⟨success, r.status, r.dataTruthy, r.nextCursor⟩,
     { st with mc := st.mc.record metric, ts := ts' })
  | (.exn msg w d, ts') =>
    let latency_ms := (w + d) * 1000
    let metric : RequestMetrics := ⟨endpoint_key, method, 0, latency_ms, false, some msg⟩
    (⟨false, 0, false, none⟩,
     { st with mc := st.mc.record metric, ts := ts' })

/-- Modelled from the spec: the dispatch latency "measures elapsed wall-clock
time from immediately before invocation to immediately after completion" -
i.e. only `callDur`, excluding any wait for a concurrency permit.  Stated for
comparison with the latency recorded by `api_call`. -/
def specDispatchLatencyMs (callDur : ℚ) : ℚ := callDur * 1000

/-! ## API operations (`LoadTester` methods) -/

/-- The string `"POST"`. -/
def mPOST : Str := ("POST").data

/-- The string `"GET"`. -/
def mGET : Str := ("GET").data

/-- The string `"DELETE"`. -/
def mDELETE : Str := ("DELETE").data

/-- `LoadTester.create_tweet` (the tweet text only travels in the body). -/
def create_tweet {σ : Type} (tr : Tr σ) (st : RunState σ) (user_id content : Str) :
    ApiResp × RunState σ :=
  api_call tr st mPOST ("/api/v1/tweets").data user_id (some content) [201]

/-- The follow/unfollow endpoint `f"/api/v1/users/{follower_id}/follow/{followee_id}"`. -/
def followPath (follower_id followee_id : Str) : Str :=
  ("/api/v1/users/").data ++ follower_id ++ ("/follow/").data ++ followee_id

/-- `LoadTester.follow_user`: POST with `expected_status=[201, 409]`. -/
def follow_user {σ : Type} (tr : Tr σ) (st : RunState σ) (follower_id followee_id : Str) :
    ApiResp × RunState σ :=
  api_call tr st mPOST (followPath follower_id followee_id) follower_id none [201, 409]

/-- `LoadTester.unfollow_user`: DELETE with `expected_status=[200, 204, 404]`. -/
def unfollow_user {σ : Type} (tr : Tr σ) (st : RunState σ) (follower_id followee_id : Str) :
    ApiResp × RunState σ :=
  api_call tr st mDELETE (followPath follower_id followee_id) follower_id none [200, 204, 404]

/-- Truthiness of the optional cursor (`if cursor:`): present and non-empty. -/
def cursorTruthy : Option Str → Bool
  | none => false
  | some c => !(c == [])

/-- The timeline URL with optional cursor parameter, from `LoadTester.get_timeline`. -/
def timelineURL (user_id : Str) (limit : Nat) (cursor : Option Str) : Str :=
  ("/api/v1/users/").data ++ user_id ++ ("/timeline?limit=").data ++ (Nat.repr limit).data ++
    (if cursorTruthy cursor then ("&cursor=").data ++ cursor.getD [] else [])

/-- `LoadTester.get_timeline`. -/
def get_timeline {σ : Type} (tr : Tr σ) (st : RunState σ) (user_id : Str) (limit : Nat)
    (cursor : Option Str) : ApiResp × RunState σ :=
  api_call tr st mGET (timelineURL user_id limit cursor) user_id none [200]

/-- The user-tweets URL with optional cursor, from `LoadTester.get_user_tweets`. -/
def userTweetsURL (user_id : Str) (limit : Nat) (cursor : Option Str) : Str :=
  ("/api/v1/users/").data ++ user_id ++ ("/tweets?limit=").data ++ (Nat.repr limit).data ++
    (if cursorTruthy cursor then ("&cursor=").data ++ cursor.getD [] else [])

/-- `LoadTester.get_user_tweets`. -/
def get_user_tweets {σ : Type} (tr : Tr σ) (st : RunState σ) (user_id : Str) (limit : Nat)
    (cursor : Option Str) : ApiResp × RunState σ :=
  api_call tr st mGET (userTweetsURL user_id limit cursor) user_id none [200]

/-- `LoadTester.get_followers` (limit defaults to 20 at its call sites). -/
def get_followers {σ : Type} (tr : Tr σ) (st : RunState σ) (user_id : Str) (limit : Nat) :
    ApiResp × RunState σ :=
  api_call tr st mGET
    (("/api/v1/users/").data ++ user_id ++ ("/followers?limit=").data ++ (Nat.repr limit).data)
    user_id none [200]

/-- `LoadTester.get_following`. -/
def get_following {σ : Type} (tr : Tr σ) (st : RunState σ) (user_id : Str) (limit : Nat) :
    ApiResp × RunState σ :=
  api_call tr st mGET
    (("/api/v1/users/").data ++ user_id ++ ("/following?limit=").data ++ (Nat.repr limit).data)
    user_id none [200]

/-! ## The cursor-pagination loop (`paginate_timeline`, `paginate_tweets`) -/

/-- The `while True` body shared verbatim by `LoadTester.paginate_timeline`
and `LoadTester.paginate_tweets`: issue one request, count the page, stop if
the response is unsuccessful or carries no (truthy) payload, otherwise stop
on an absent/empty `nextCursor` and repeat with the returned cursor.  `fuel`
bounds the number of iterations of the otherwise unbounded Python loop;
`none` means the loop would still be running after `fuel` requests. -/
def paginateLoop {σ : Type} (fetch : RunState σ → Option Str → ApiResp × RunState σ) :
    Nat → RunState σ → Option Str → Nat → Option (Nat × RunState σ)
  | 0, _, _, _ => none
  | fuel + 1, st, cursor, pages =>
    let (result, st') := fetch st cursor
    let pages' := pages + 1
    if result.success = false ∨ result.hasData = false then some (pages', st')
    else
      match result.nextCursor with
      | none => some (pages', st')
      | some c => if c = [] then some (pages', st') else paginateLoop fetch fuel st' (some c) pages'

/-- `LoadTester.paginate_timeline`. -/
def paginate_timeline {σ : Type} (tr : Tr σ) (fuel : Nat) (st : RunState σ)
    (user_id : Str) (limit : Nat) : Option (Nat × RunState σ) :=
  paginateLoop (fun s c => get_timeline tr s user_id limit c) fuel st none 0

/-- `LoadTester.paginate_tweets`. -/
def paginate_tweets {σ : Type} (tr : Tr σ) (fuel : Nat) (st : RunState σ)
    (user_id : Str) (limit : Nat) : Option (Nat × RunState σ) :=
  paginateLoop (fun s c => get_user_tweets tr s user_id limit c) fuel st none 0

/-- The response/state trace induced by iterating `fetch` with cursor
threading, mirroring the pagination loop: entry `k` is the pair produced by
the `k`-th request. -/
def pageTrace {σ : Type} (fetch : RunState σ → Option Str → ApiResp × RunState σ)
    (st : RunState σ) (cursor : Option Str) : Nat → ApiResp × RunState σ
  | 0 => fetch st cursor
  | k + 1 =>
    let (r, st') := fetch st cursor
    pageTrace fetch st' r.nextCursor k

/-- Whether a response terminates the pagination loop. -/
def stopsPaging (r : ApiResp) : Bool :=
  !r.success || !r.hasData ||
    (match r.nextCursor with
     | none => true
     | some c => c == [])

/-! ## Scenario phases and `LoadTester.run`

The asynchronous `asyncio.gather` fan-outs are executed in task-construction
order.  For the properties below (numbers of recorded outcomes, their success
flags, phase tags) any interleaving records the same multiset of outcomes,
because the transports used are insensitive to request order; the barrier at
each phase end is the `gather` await.  `uuid.uuid4()` draws and the
`random.sample`/`random.choice` draws are supplied as oracles. -/

/-- Scenario configuration (the `users`, `activity` and `concurrency`
sections actually read by the phases). -/
structure Config where
  regular : Nat
  celebrities : Nat
  tweets_per_user : Nat
  timeline_reads_per_user : Nat
  follows_per_regular_user : Nat
  unfollows_per_user : Nat
  pagination_page_size : Nat

/-- Randomness/ID oracles: the `uuid.uuid4()` outputs of phases 1 and 2 and
the `random.sample`/`random.choice` draws of phases 3 and 8. -/
structure Oracles where
  regularIds : List Str
  celebIds : List Str
  followerIds : Nat → Str
  sample : List Str → Nat → List Str
  choice : List Str → Str

/-- `app.timeline.celebrity-follower-threshold` (hard-coded 5000). -/
def celebThreshold : Nat := 5000

/-- A fixed stand-in for the formatted tweet bodies (content travels only in
the request body, which no property below inspects). -/
def tweetContent : Str := ("content").data

/-- Phase 1, `LoadTester.phase_create_users`: generate each user id, append
it to the corresponding list, and post a first tweet; finally set
`all_users = regular_users + celebrities`. -/
def phase_create_users {σ : Type} (tr : Tr σ) (orc : Oracles) (st : RunState σ) :
    RunState σ :=
  let st1 := orc.regularIds.foldl
    (fun s uid =>
      let s' := { s with regular_users := s.regular_users ++ [uid] }
      (create_tweet tr s' uid tweetContent).2) st
  let st2 := orc.celebIds.foldl
    (fun s uid =>
      let s' := { s with celebrities := s.celebrities ++ [uid] }
      (create_tweet tr s' uid tweetContent).2) st1
  { st2 with all_users := st2.regular_users ++ st2.celebrities }

/-- Phase 2, `LoadTester.phase_build_celebrity_followers`: for each celebrity
create `celebThreshold` follower accounts and follow the celebrity.  The
follower-id oracle is indexed by a running counter. -/
def phase_build_celebrity_followers {σ : Type} (tr : Tr σ) (orc : Oracles)
    (st : RunState σ) : RunState σ :=
  (st.celebrities.foldl
    (fun (p : RunState σ × Nat) celeb =>
      (List.range celebThreshold).foldl
        (fun (q : RunState σ × Nat) _ =>
          let fid := orc.followerIds q.2
          let s' := { q.1 with celebrity_followers := q.1.celebrity_followers ++ [fid] }
          ((follow_user tr s' fid celeb).2, q.2 + 1)) p)
    (st, 0)).1

/-- Phase 3, `LoadTester.phase_build_social_graph`: each regular user samples
`min(follows_per_regular_user, len(others))` other regular users, extends the
sample with every celebrity, stores the result in `follow_graph`, and issues
one follow per target. -/
def phase_build_social_graph {σ : Type} (tr : Tr σ) (cfg : Config) (orc : Oracles)
    (st : RunState σ) : RunState σ :=
  st.regular_users.foldl
    (fun s user =>
      let others := s.regular_users.filter (fun u => u ≠ user)
      let to_follow :=
        orc.sample others (min cfg.follows_per_regular_user others.length) ++ s.celebrities
      let s' := { s with follow_graph := dictSet s.follow_graph user to_follow }
      to_follow.foldl (fun s2 target => (follow_user tr s2 user target).2) s') st

/-- Phase 4, `LoadTester.phase_create_tweets`: `tweets_per_user` rounds of one
tweet per user in `all_users`. -/
def phase_create_tweets {σ : Type} (tr : Tr σ) (cfg : Config) (st : RunState σ) :
    RunState σ :=
  (List.range cfg.tweets_per_user).foldl
    (fun s _ => s.all_users.foldl (fun s2 user => (create_tweet tr s2 user tweetContent).2) s)
    st

/-- Phase 5, `LoadTester.phase_read_timelines`: `timeline_reads_per_user`
rounds of a full timeline pagination per regular user. -/
def phase_read_timelines {σ : Type} (tr : Tr σ) (cfg : Config) (fuel : Nat)
    (st : RunState σ) : Option (RunState σ) :=
  (List.range cfg.timeline_reads_per_user).foldlM
    (fun s _ =>
      s.regular_users.foldlM
        (fun s2 user =>
          (paginate_timeline tr fuel s2 user cfg.pagination_page_size).map (·.2)) s)
    st

/-- Phase 6, `LoadTester.phase_check_profiles`: every user paginates their own
tweets then fetches followers and following (limit 20). -/
def phase_check_profiles {σ : Type} (tr : Tr σ) (cfg : Config) (fuel : Nat)
    (st : RunState σ) : Option (RunState σ) :=
  st.all_users.foldlM
    (fun s user =>
      ((paginate_tweets tr fuel s user cfg.pagination_page_size).map (·.2)).map
        (fun s1 =>
          let s2 := (get_followers tr s1 user 20).2
          (get_following tr s2 user 20).2))
    st

/-- Phase 7, `LoadTester.phase_unfollow_some`: each regular user unfollows the
first `min(unfollows_per_user, len(regular_following))` non-celebrity entries
of their `follow_graph` list. -/
def phase_unfollow_some {σ : Type} (tr : Tr σ) (cfg : Config) (st : RunState σ) :
    RunState σ :=
  st.regular_users.foldl
    (fun s user =>
      let following := dictGetD s.follow_graph user []
      let regular_following := following.filter (fun f => !(decide (f ∈ s.celebrities)))
      (regular_following.take (min cfg.unfollows_per_user regular_following.length)).foldl
        (fun s2 target => (unfollow_user tr s2 user target).2) s)
    st

/-- Phase 8, `LoadTester.phase_mixed_activity`: two rounds in which every
regular user tweets, follows one not-yet-followed regular user when one
exists, and paginates their timeline. -/
def phase_mixed_activity {σ : Type} (tr : Tr σ) (cfg : Config) (orc : Oracles)
    (fuel : Nat) (st : RunState σ) : Option (RunState σ) :=
  (List.range 2).foldlM
    (fun s _ =>
      s.regular_users.foldlM
        (fun s2 user =>
          let s3 := (create_tweet tr s2 user tweetContent).2
          let not_following := s3.regular_users.filter
            (fun u => decide (u ≠ user) && !(decide (u ∈ dictGetD s3.follow_graph user [])))
          let s4 := if not_following ≠ [] then
              (follow_user tr s3 user (orc.choice not_following)).2
            else s3
          (paginate_timeline tr fuel s4 user cfg.pagination_page_size).map (·.2))
        s)
    st

/-- `LoadTester.run` after a successful health check: the three setup phases
under the `"setup"` tag, then the five runtime phases under the `"runtime"`
tag.  (Banner/config/progress printing and the settle delay after phase 4
record nothing and are omitted.) -/
def runScenario {σ : Type} (tr : Tr σ) (cfg : Config) (orc : Oracles) (fuel : Nat)
    (s0 : σ) : Option (RunState σ) :=
  let st0 := initRunState s0
  let st1 := { st0 with mc := st0.mc.set_phase setupStr }
  let st2 := phase_create_users tr orc st1
  let st3 := phase_build_celebrity_followers tr orc st2
  let st4 := phase_build_social_graph tr cfg orc st3
  let st5 := { st4 with mc := st4.mc.set_phase runtimeStr }
  let st6 := phase_create_tweets tr cfg st5
  (phase_read_timelines tr cfg fuel st6).bind fun st7 =>
  (phase_check_profiles tr cfg fuel st7).bind fun st8 =>
  (phase_mixed_activity tr cfg orc fuel (phase_unfollow_some tr cfg st8))

/-! ## Concrete instances and proof-side abbreviations -/

/-- The per-endpoint bucket for a key, as read by `print_results`'s endpoint
table (`defaultdict` access). -/
def statsAt (m : MetricsCollector) (k : Str) : EndpointStats :=
  dictGetD m.by_endpoint k emptyStats

/-- The most recently recorded metric of a run state (default is never used:
it is only read after at least one `record`). -/
def lastMetric {σ : Type} (st : RunState σ) : RequestMetrics :=
  st.mc.requests.getLastD ⟨[], [], 0, 0, false, none⟩

/-- A fake transport that always succeeds: 201 for POST, 204 for DELETE and
200 otherwise, always a truthy payload with no continuation cursor, zero
permit wait and unit call duration.  Every status lies in the acceptable set
of the operation that issues it. -/
def fakeTr : Tr Unit := fun _ method _ _ =>
  (.ok ⟨if method = mPOST then 201 else if method = mDELETE then 204 else 200,
        true, none, 0, 1⟩, ())

/-- A transport whose response arrives after 5 time units of permit wait and
2 time units of call duration. -/
def waitTr : Tr Unit := fun _ _ _ _ => (.ok ⟨200, true, none, 5, 2⟩, ())

/-- A transport that always returns HTTP 409. -/
def tr409 : Tr Unit := fun _ _ _ _ => (.ok ⟨409, true, none, 0, 1⟩, ())

/-- A transport that always returns HTTP 404. -/
def tr404 : Tr Unit := fun _ _ _ _ => (.ok ⟨404, true, none, 0, 1⟩, ())

/-- A transport that always raises a connection error. -/
def trExn : Tr Unit := fun _ _ _ _ => (.exn ("Cannot connect to host").data 0 1, ())

/-- A successful page response carrying the given continuation cursor. -/
def pageOk (c : Option Str) : TransportOk := ⟨200, true, c, 0, 1⟩

/-- The three responses of the spec's fake paginated endpoint: cursors
`"a"`, then `"b"`, then the empty cursor. -/
def abcList : List TransportOk :=
  [pageOk (some (("a").data)), pageOk (some (("b").data)), pageOk (some [])]

/-- The fake paginated endpoint as a transport; its state logs every
requested URL. -/
def abcTr : Tr (List Str) := fun log _ url _ =>
  (.ok (abcList.getD log.length (pageOk none)), log ++ [url])

/-- The scenario configuration of the end-to-end claim: 10 regular users,
0 celebrities, 1 tweet per user, 0 timeline reads (0 graph follows, the
default 1 unfollow, default page size 10). -/
def demoConfig : Config := ⟨10, 0, 1, 0, 0, 1, 10⟩

/-- Ten distinct concrete user identifiers standing for the `uuid4` draws. -/
def demoIds : List Str :=
  [("u0").data, ("u1").data, ("u2").data, ("u3").data, ("u4").data,
   ("u5").data, ("u6").data, ("u7").data, ("u8").data, ("u9").data]

/-- Concrete oracles for the end-to-end claim. -/
def demoOracles : Oracles :=
  ⟨demoIds, [], fun _ => [], fun _ _ => [], fun l => l.headD []⟩

/-- A recorded request against a fixed endpoint with the given success flag
and latency. -/
def demoMetric (ok : Bool) (lat : ℚ) : RequestMetrics :=
  ⟨("/x").data, mGET, if ok then 200 else 500, lat, ok,
   if ok then none else some (httpErrStr 500)⟩

/-- A collector holding the spec's verdict example: 10 runtime requests of
latency 300, nine successes and one failure (success rate 90, p95 300). -/
def mVerdict : MetricsCollector :=
  ((List.replicate 9 (demoMetric true 300)) ++ [demoMetric false 300]).foldl
    MetricsCollector.record (MetricsCollector.init.set_phase runtimeStr)

/-- A collector with a single successful runtime request of latency 300. -/
def mSlowOk : MetricsCollector :=
  MetricsCollector.record (MetricsCollector.init.set_phase runtimeStr) (demoMetric true 300)

/-- A collector recording two latency samples (1 and 2) on one bucket. -/
def mTwoLats : MetricsCollector :=
  [demoMetric true 1, demoMetric true 2].foldl
    MetricsCollector.record (MetricsCollector.init.set_phase runtimeStr)

/-- A collector recording three latency samples (1, 2 and 3) on one bucket. -/
def mThreeLats : MetricsCollector :=
  [demoMetric true 1, demoMetric true 2, demoMetric true 3].foldl
    MetricsCollector.record (MetricsCollector.init.set_phase runtimeStr)

/-- The bucket key of `demoMetric` records. -/
def demoKey : Str := mGET ++ (" ").data ++ ("/x").data

/-- Thresholds from the spec's failing verdict example: 5 percent error rate,
200 p95. -/
def demoThresholds : Thresholds := ⟨5, 200⟩

/-- Relation used to accumulate phase effects: `RunStep st st' n` says the
step preserved the phase tag, the user bookkeeping and the follow graph,
recorded `n` new runtime requests, and every new runtime request succeeded. -/
def RunStep {σ : Type} (st st' : RunState σ) (n : Nat) : Prop :=
  st'.mc.phase = st.mc.phase ∧
  st'.mc.runtime_requests.length = st.mc.runtime_requests.length + n ∧
  st'.regular_users = st.regular_users ∧
  st'.celebrities = st.celebrities ∧
  st'.all_users = st.all_users ∧
  st'.follow_graph = st.follow_graph ∧
  (∀ r ∈ st'.mc.runtime_requests, r ∈ st.mc.runtime_requests ∨ r.success = true)

/-- `braceIB s` holds when `s` contains an `i` immediately preceded by a brace
character - the signature left behind by every insertion of the `{id}` token.
Strings with this shape are never accepted by `uuid.UUID`, which is the key
invariant behind the idempotence of the endpoint normalization. -/
def braceIB : Str → Bool
  | [] => false
  | [_] => false
  | b :: c :: rest => (isBraceC b && (c == 'i')) || braceIB (c :: rest)

/-- Components of a run state that the runtime phases leave untouched;
used as the side condition when accumulating `RunStep`s over a fold. -/
def SameCtx {σ : Type} (s t : RunState σ) : Prop :=
  s.mc.phase = t.mc.phase ∧ s.regular_users = t.regular_users ∧
  s.celebrities = t.celebrities ∧ s.all_users = t.all_users ∧
  s.follow_graph = t.follow_graph

/-! ## Basic lemmas about the embedded collector -/

theorem record_requests (m : MetricsCollector) (x : RequestMetrics) :
    (m.record x).requests = m.requests ++ [x] := rfl

theorem record_phase (m : MetricsCollector) (x : RequestMetrics) :
    (m.record x).phase = m.phase := rfl

theorem record_runtime (m : MetricsCollector) (x : RequestMetrics) :
    (m.record x).runtime_requests =
      if m.phase = setupStr then m.runtime_requests else m.runtime_requests ++ [x] := rfl

theorem record_setup (m : MetricsCollector) (x : RequestMetrics) :
    (m.record x).setup_requests =
      if m.phase = setupStr then m.setup_requests ++ [x] else m.setup_requests := rfl

theorem setup_ne_runtime : setupStr ≠ runtimeStr := by decide

theorem record_runtime_of_runtime (m : MetricsCollector) (x : RequestMetrics)
    (h : m.phase = runtimeStr) :
    (m.record x).runtime_requests = m.runtime_requests ++ [x] := by
  rw [record_runtime, if_neg]
  rw [h]
  exact (setup_ne_runtime ·.symm)

theorem record_runtime_of_setup (m : MetricsCollector) (x : RequestMetrics)
    (h : m.phase = setupStr) :
    (m.record x).runtime_requests = m.runtime_requests := by
  rw [record_runtime, if_pos h]

/-- `api_call` always hands back the same state with one metric recorded and
the transport state advanced, whatever the transport did. -/
theorem api_call_shape {σ : Type} (tr : Tr σ) (st : RunState σ)
    (method endpoint user : Str) (body : Option Str) (expected : List Nat) :
    ∃ (x : RequestMetrics) (ts' : σ),
      (api_call tr st method endpoint user body expected).2 =
        { st with mc := st.mc.record x, ts := ts' } := by
  unfold api_call
  rcases h : tr st.ts method endpoint body with ⟨r | ⟨msg, w, d⟩, ts'⟩
  · exact ⟨_, ts', rfl⟩
  · exact ⟨_, ts', rfl⟩

/-! ## C8: the `total = success + failed` bucket invariant -/

theorem dictGetD_dictSet_self {α : Type} (d : List (Str × α)) (k : Str) (v : α)
    (dflt : α) : dictGetD (dictSet d k v) k dflt = v := by
  induction d with
  | nil => simp [dictSet, dictGetD]
  | cons e rest ih =>
    obtain ⟨k', v'⟩ := e
    by_cases h : k' = k
    · simp [dictSet, dictGetD, h]
    · simp [dictSet, dictGetD, h, ih]

theorem dictGetD_dictSet_ne {α : Type} (d : List (Str × α)) (k k' : Str) (v : α)
    (dflt : α) (h : k' ≠ k) : dictGetD (dictSet d k v) k' dflt = dictGetD d k' dflt := by
  have hk : k ≠ k' := fun he => h he.symm
  induction d with
  | nil => simp [dictSet, dictGetD, hk]
  | cons e rest ih =>
    obtain ⟨k0, v0⟩ := e
    by_cases h0 : k0 = k
    · subst h0
      simp [dictSet, dictGetD, hk]
    · by_cases h1 : k0 = k'
      · simp [dictSet, dictGetD, h0, h1, h]
      · simp [dictSet, dictGetD, h0, h1, ih]

/-- The bucket key a metric is recorded under. -/
def metricKey (x : RequestMetrics) : Str := x.method ++ (" ").data ++ x.endpoint

/-- Effect of one `record` on the bucket it targets. -/
theorem record_statsAt (m : MetricsCollector) (x : RequestMetrics) :
    (statsAt (m.record x) (metricKey x)).total = (statsAt m (metricKey x)).total + 1 ∧
    (statsAt (m.record x) (metricKey x)).success =
      (statsAt m (metricKey x)).success + (if x.success then 1 else 0) ∧
    (statsAt (m.record x) (metricKey x)).failed =
      (statsAt m (metricKey x)).failed + (if x.success then 0 else 1) ∧
    (statsAt (m.record x) (metricKey x)).latencies =
      (statsAt m (metricKey x)).latencies ++ [x.latency_ms] := by
  unfold statsAt MetricsCollector.record metricKey
  cases hx : x.success <;>
    simp [hx, dictGetD_dictSet_self]

theorem record_statsAt_ne (m : MetricsCollector) (x : RequestMetrics) (k : Str)
    (h : k ≠ metricKey x) : statsAt (m.record x) k = statsAt m k := by
  have h' : k ≠ x.method ++ (" ").data ++ x.endpoint := h
  unfold statsAt MetricsCollector.record
  cases hx : x.success <;>
    simp only [hx, Bool.false_eq_true, if_true, if_false, ite_false, ite_true] <;>
    exact dictGetD_dictSet_ne _ _ _ _ _ (by simpa using h')

theorem record_keeps_inv (m : MetricsCollector) (x : RequestMetrics)
    (h : ∀ k, (statsAt m k).total = (statsAt m k).success + (statsAt m k).failed) :
    ∀ k, (statsAt (m.record x) k).total =
      (statsAt (m.record x) k).success + (statsAt (m.record x) k).failed := by
  intro k
  by_cases hk : k = metricKey x
  · rw [hk]
    obtain ⟨h1, h2, h3, -⟩ := record_statsAt m x
    rw [h1, h2, h3, h (metricKey x)]
    cases x.success <;> simp <;> omega
  · rw [record_statsAt_ne m x k hk]
    exact h k

theorem foldl_record_inv (ms : List RequestMetrics) :
    ∀ (m : MetricsCollector),
      (∀ k, (statsAt m k).total = (statsAt m k).success + (statsAt m k).failed) →
      ∀ k, (statsAt (ms.foldl MetricsCollector.record m) k).total =
        (statsAt (ms.foldl MetricsCollector.record m) k).success +
        (statsAt (ms.foldl MetricsCollector.record m) k).failed := by
  induction ms with
  | nil => intro m h k; exact h k
  | cons x rest ih =>
    intro m h k
    exact ih (m.record x) (record_keeps_inv m x h) k

/-- C8: for every EndpointStats bucket, after every record call the equation
total == success + failed holds: starting from a fresh collector, every bucket
satisfies `total = success + failed` after any sequence of `record` calls, and
each individual `record` increments the target bucket's `total` by exactly 1
and exactly one of `success`/`failed` by exactly 1. -/
theorem C8_total_eq_success_add_failed :
    (∀ (ms : List RequestMetrics) (k : Str),
      (statsAt (ms.foldl MetricsCollector.record MetricsCollector.init) k).total =
        (statsAt (ms.foldl MetricsCollector.record MetricsCollector.init) k).success +
        (statsAt (ms.foldl MetricsCollector.record MetricsCollector.init) k).failed) ∧
    (∀ (m : MetricsCollector) (x : RequestMetrics),
      (statsAt (m.record x) (metricKey x)).total = (statsAt m (metricKey x)).total + 1 ∧
      (statsAt (m.record x) (metricKey x)).success =
        (statsAt m (metricKey x)).success + (if x.success then 1 else 0) ∧
      (statsAt (m.record x) (metricKey x)).failed =
        (statsAt m (metricKey x)).failed + (if x.success then 0 else 1)) := by
  constructor
  · intro ms k
    apply foldl_record_inv
    intro k'
    simp [statsAt, MetricsCollector.init, dictGetD, emptyStats]
  · intro m x
    obtain ⟨h1, h2, h3, -⟩ := record_statsAt m x
    exact ⟨h1, h2, h3⟩

/-! ## C7: every dispatch records exactly one outcome -/

theorem getLastD_append_single {α : Type} (l : List α) (a d : α) :
    (l ++ [a]).getLastD d = a := by
  simp [List.getLastD_eq_getLast?, List.getLast?_concat]

/-- C7: every dispatched unit of work produces exactly one recorded Outcome,
for every behaviour of the transport: one metric is appended whatever the
transport returns; on a returned status the outcome's success flag is
membership of the status in the declared acceptable set (with an `HTTP`
reason exactly on failure); on a raised exception a failed outcome carrying
the exception message is recorded, `api_call` returning a failure dictionary
instead of propagating (the embedded `api_call` is a total function: both
transport behaviours flow into a `record` and a normal return). -/
theorem C7_one_outcome_per_dispatch {σ : Type} (tr : Tr σ) (st : RunState σ)
    (method endpoint user : Str) (body : Option Str) (expected : List Nat) :
    (((api_call tr st method endpoint user body expected).2).mc.requests =
      st.mc.requests ++ [lastMetric (api_call tr st method endpoint user body expected).2]) ∧
    (((api_call tr st method endpoint user body expected).2).mc.requests.length =
      st.mc.requests.length + 1) ∧
    (∀ r ts', tr st.ts method endpoint body = (.ok r, ts') →
      ((lastMetric (api_call tr st method endpoint user body expected).2).success = true ↔
        r.status ∈ expected) ∧
      (lastMetric (api_call tr st method endpoint user body expected).2).status = r.status ∧
      ((lastMetric (api_call tr st method endpoint user body expected).2).error =
        if decide (r.status ∈ expected) then none else some (httpErrStr r.status)) ∧
      (api_call tr st method endpoint user body expected).1.success =
        decide (r.status ∈ expected)) ∧
    (∀ msg w d ts', tr st.ts method endpoint body = (.exn msg w d, ts') →
      (lastMetric (api_call tr st method endpoint user body expected).2).success = false ∧
      (lastMetric (api_call tr st method endpoint user body expected).2).status = 0 ∧
      (lastMetric (api_call tr st method endpoint user body expected).2).error = some msg ∧
      (api_call tr st method endpoint user body expected).1 = ⟨false, 0, false, none⟩) := by
  rcases htr : tr st.ts method endpoint body with ⟨res, ts0⟩
  cases res with
  | ok r =>
    refine ⟨?_, ?_, ?_, ?_⟩
    · simp [api_call, htr, lastMetric, record_requests, getLastD_append_single]
    · simp [api_call, htr, record_requests]
    · intro r' ts' h
      have hr : r' = r := by simpa using congrArg Prod.fst h.symm
      subst hr
      simp [api_call, htr, lastMetric, record_requests, getLastD_append_single]
    · intro msg w d ts' h
      exact absurd (congrArg Prod.fst h) (by simp)
  | exn msg w d =>
    refine ⟨?_, ?_, ?_, ?_⟩
    · simp [api_call, htr, lastMetric, record_requests, getLastD_append_single]
    · simp [api_call, htr, record_requests]
    · intro r' ts' h
      exact absurd (congrArg Prod.fst h) (by simp)
    · intro msg' w' d' ts' h
      have hm : msg' = msg := by
        have := congrArg Prod.fst h.symm
        simp at this
        exact this.1
      subst hm
      simp [api_call, htr, lastMetric, record_requests, getLastD_append_single]

/-- Witness for C7 at a concrete transport returning 409 against the
follow operation's acceptable set. -/
theorem C7_one_outcome_witness :
    (((api_call tr409 (initRunState ()) mPOST (followPath ("a").data ("b").data)
        ("a").data none [201, 409]).2).mc.requests.length =
      ((initRunState () : RunState Unit)).mc.requests.length + 1) ∧
    ((lastMetric (api_call tr409 (initRunState ()) mPOST (followPath ("a").data ("b").data)
        ("a").data none [201, 409]).2).success = true ↔ (409 : Nat) ∈ [201, 409]) := by
  have h := C7_one_outcome_per_dispatch tr409 (initRunState ()) mPOST
    (followPath ("a").data ("b").data) ("a").data none [201, 409]
  exact ⟨h.2.1, (h.2.2.1 ⟨409, true, none, 0, 1⟩ () rfl).1⟩

/-- Shape of the state and last metric after an `api_call` whose transport
returned a status (shared by several claims below). -/
theorem api_call_ok_last {σ : Type} (tr : Tr σ) (st : RunState σ)
    (method endpoint user : Str) (body : Option Str) (expected : List Nat)
    (r : TransportOk) (ts' : σ) (h : tr st.ts method endpoint body = (.ok r, ts')) :
    (lastMetric (api_call tr st method endpoint user body expected).2) =
      ⟨normalizeEndpoint endpoint, method, r.status, (r.permitWait + r.callDur) * 1000,
       decide (r.status ∈ expected),
       if decide (r.status ∈ expected) then none else some (httpErrStr r.status)⟩ ∧
    ((api_call tr st method endpoint user body expected).2).mc.requests =
      st.mc.requests ++ [(lastMetric (api_call tr st method endpoint user body expected).2)] := by
  constructor <;> simp [api_call, h, lastMetric, record_requests, getLastD_append_single]

theorem total_failed_record_success (m : MetricsCollector) (x : RequestMetrics)
    (hx : x.success = true) : (m.record x).total_failed = m.total_failed := by
  simp [MetricsCollector.total_failed, record_requests, List.filter_append, hx]

/-! ## C10: follow/unfollow acceptable-status sets -/

/-- C10: `follow_user` declares `[201, 409]` acceptable and `unfollow_user`
declares `[200, 204, 404]` acceptable: the recorded outcome's success flag is
exactly membership in those sets, and any of those statuses (in particular
409 "already following" and 404 "not following") records a success, leaving
the collector's failure count unchanged. -/
theorem C10_follow_unfollow_conflict_statuses {σ : Type} (tr : Tr σ) (st : RunState σ)
    (follower followee : Str) :
    (∀ r ts', tr st.ts mPOST (followPath follower followee) none = (.ok r, ts') →
      ((lastMetric (follow_user tr st follower followee).2).success = true ↔
        (r.status = 201 ∨ r.status = 409)) ∧
      (r.status = 201 ∨ r.status = 409 →
        (lastMetric (follow_user tr st follower followee).2).success = true ∧
        ((follow_user tr st follower followee).2).mc.total_failed = st.mc.total_failed)) ∧
    (∀ r ts', tr st.ts mDELETE (followPath follower followee) none = (.ok r, ts') →
      ((lastMetric (unfollow_user tr st follower followee).2).success = true ↔
        (r.status = 200 ∨ r.status = 204 ∨ r.status = 404)) ∧
      (r.status = 200 ∨ r.status = 204 ∨ r.status = 404 →
        (lastMetric (unfollow_user tr st follower followee).2).success = true ∧
        ((unfollow_user tr st follower followee).2).mc.total_failed = st.mc.total_failed)) := by
  constructor
  · intro r ts' h
    obtain ⟨hl, hr⟩ := api_call_ok_last tr st mPOST (followPath follower followee)
      follower none [201, 409] r ts' h
    have hs : (lastMetric (follow_user tr st follower followee).2).success =
        decide (r.status ∈ [201, 409]) := by
      rw [show (follow_user tr st follower followee) =
        api_call tr st mPOST (followPath follower followee) follower none [201, 409] from rfl,
        hl]
    constructor
    · rw [hs]; simp
    · intro hin
      have hmem : r.status ∈ [201, 409] := by
        rcases hin with h1 | h1 <;> simp [h1]
      refine ⟨by rw [hs]; simpa using hmem, ?_⟩
      have hsucc : (lastMetric (follow_user tr st follower followee).2).success = true := by
        rw [hs]; simpa using hmem
      show ((api_call tr st mPOST (followPath follower followee) follower none
        [201, 409]).2).mc.total_failed = st.mc.total_failed
      rcases api_call_shape tr st mPOST (followPath follower followee) follower none [201, 409]
        with ⟨x, ts0, hx⟩
      have hxlast : lastMetric (api_call tr st mPOST (followPath follower followee)
          follower none [201, 409]).2 = x := by
        rw [hx]; simp [lastMetric, record_requests, getLastD_append_single]
      rw [hx]
      exact total_failed_record_success st.mc x (by rw [← hxlast]; exact hsucc)
  · intro r ts' h
    obtain ⟨hl, hr⟩ := api_call_ok_last tr st mDELETE (followPath follower followee)
      follower none [200, 204, 404] r ts' h
    have hs : (lastMetric (unfollow_user tr st follower followee).2).success =
        decide (r.status ∈ [200, 204, 404]) := by
      rw [show (unfollow_user tr st follower followee) =
        api_call tr st mDELETE (followPath follower followee) follower none
          [200, 204, 404] from rfl, hl]
    constructor
    · rw [hs]; simp
    · intro hin
      have hmem : r.status ∈ [200, 204, 404] := by
        rcases hin with h1 | h1 | h1 <;> simp [h1]
      refine ⟨by rw [hs]; simpa using hmem, ?_⟩
      have hsucc : (lastMetric (unfollow_user tr st follower followee).2).success = true := by
        rw [hs]; simpa using hmem
      show ((api_call tr st mDELETE (followPath follower followee) follower none
        [200, 204, 404]).2).mc.total_failed = st.mc.total_failed
      rcases api_call_shape tr st mDELETE (followPath follower followee) follower none
        [200, 204, 404] with ⟨x, ts0, hx⟩
      have hxlast : lastMetric (api_call tr st mDELETE (followPath follower followee)
          follower none [200, 204, 404]).2 = x := by
        rw [hx]; simp [lastMetric, record_requests, getLastD_append_single]
      rw [hx]
      exact total_failed_record_success st.mc x (by rw [← hxlast]; exact hsucc)

/-- Witness for C10: a 409 on follow and a 404 on unfollow both record
successes and leave the failure count unchanged. -/
theorem C10_conflict_statuses_witness :
    ((lastMetric (follow_user tr409 (initRunState ()) ("a").data ("b").data).2).success = true ∧
      ((follow_user tr409 (initRunState ()) ("a").data ("b").data).2).mc.total_failed =
        ((initRunState () : RunState Unit)).mc.total_failed) ∧
    ((lastMetric (unfollow_user tr404 (initRunState ()) ("a").data ("b").data).2).success = true ∧
      ((unfollow_user tr404 (initRunState ()) ("a").data ("b").data).2).mc.total_failed =
        ((initRunState () : RunState Unit)).mc.total_failed) := by
  constructor
  · exact ((C10_follow_unfollow_conflict_statuses tr409 (initRunState ())
      ("a").data ("b").data).1 ⟨409, true, none, 0, 1⟩ () rfl).2 (Or.inr rfl)
  · exact ((C10_follow_unfollow_conflict_statuses tr404 (initRunState ())
      ("a").data ("b").data).2 ⟨404, true, none, 0, 1⟩ () rfl).2 (Or.inr (Or.inr rfl))

/-! ## C3: what interval the recorded latency measures -/

/-- C3 counterexample: `api_call` takes its `start = time.perf_counter()`
timestamp before `async with self.semaphore`, so a call that waits 5 time
units for a permit and then completes in 2 records 7000 ms, not the 2000 ms
that measuring from "immediately before the transport invocation" would
give. -/
theorem C3_latency_counterexample :
    (lastMetric (api_call waitTr (initRunState ()) mGET ("/x").data ("u").data
        none [200]).2).latency_ms = 7000 ∧
    specDispatchLatencyMs 2 = 2000 ∧
    (lastMetric (api_call waitTr (initRunState ()) mGET ("/x").data ("u").data
        none [200]).2).latency_ms ≠ specDispatchLatencyMs 2 := by
  obtain ⟨hl, -⟩ := api_call_ok_last waitTr (initRunState ()) mGET ("/x").data ("u").data
    none [200] ⟨200, true, none, 5, 2⟩ () rfl
  rw [hl]
  refine ⟨by norm_num, by norm_num [specDispatchLatencyMs], by norm_num [specDispatchLatencyMs]⟩

/-- C3 (amended): the latency stored in an Outcome measures the wall-clock
interval from the `start` timestamp taken immediately before the permit
acquisition to immediately after completion, so it equals the
invocation-to-completion interval plus the permit wait, and (for a
non-negative wait) is at least the spec's invocation-only interval: time
spent suspended waiting for the concurrency permit IS included. -/
theorem C3_latency_from_before_permit_wait {σ : Type} (tr : Tr σ) (st : RunState σ)
    (method endpoint user : Str) (body : Option Str) (expected : List Nat)
    (r : TransportOk) (ts' : σ) (h : tr st.ts method endpoint body = (.ok r, ts'))
    (hw : 0 ≤ r.permitWait) :
    (lastMetric (api_call tr st method endpoint user body expected).2).latency_ms =
      specDispatchLatencyMs r.callDur + r.permitWait * 1000 ∧
    specDispatchLatencyMs r.callDur ≤
      (lastMetric (api_call tr st method endpoint user body expected).2).latency_ms := by
  obtain ⟨hl, -⟩ := api_call_ok_last tr st method endpoint user body expected r ts' h
  rw [hl]
  constructor
  · show (r.permitWait + r.callDur) * 1000 = specDispatchLatencyMs r.callDur + r.permitWait * 1000
    unfold specDispatchLatencyMs
    ring
  · show specDispatchLatencyMs r.callDur ≤ (r.permitWait + r.callDur) * 1000
    unfold specDispatchLatencyMs
    nlinarith

/-- Witness for C3 at the concrete waiting transport. -/
theorem C3_latency_witness :
    (lastMetric (api_call waitTr (initRunState ()) mGET ("/x").data ("u").data
        none [200]).2).latency_ms = specDispatchLatencyMs 2 + 5 * 1000 := by
  exact (C3_latency_from_before_permit_wait waitTr (initRunState ()) mGET ("/x").data
    ("u").data none [200] ⟨200, true, none, 5, 2⟩ () rfl (by decide)).1

/-! ## C1/C4: the verdict and the process exit code -/

theorem runtime_ne_setup_eq : (runtimeStr = setupStr) = False := by
  simp [setup_ne_runtime.symm]

theorem phase_stats_runtime (m : MetricsCollector) (h : m.runtime_requests ≠ []) :
    m.get_phase_stats runtimeStr =
      ⟨m.runtime_requests.length,
       (m.runtime_requests.filter (·.success)).length,
       m.runtime_requests.length - (m.runtime_requests.filter (·.success)).length,
       some (((m.runtime_requests.filter (·.success)).length : ℚ) /
         (m.runtime_requests.length : ℚ) * 100),
       (pySorted (m.runtime_requests.map (·.latency_ms))).getD
         ((pySorted (m.runtime_requests.map (·.latency_ms))).length / 2) 0,
       (pySorted (m.runtime_requests.map (·.latency_ms))).getD
         ((pySorted (m.runtime_requests.map (·.latency_ms))).length * 95 / 100) 0,
       (pySorted (m.runtime_requests.map (·.latency_ms))).getD
         ((pySorted (m.runtime_requests.map (·.latency_ms))).length * 99 / 100) 0⟩ := by
  simp [MetricsCollector.get_phase_stats, runtime_ne_setup_eq, h]

theorem print_results_rich_eq (m : MetricsCollector) (cfg : Thresholds) (sr : ℚ)
    (hsr : (m.get_phase_stats runtimeStr).success_rate = some sr) :
    print_results_rich m cfg =
      some (decide (100 - cfg.max_error_rate_percent ≤ sr) &&
              decide ((m.get_phase_stats runtimeStr).p95 < cfg.max_p95_latency_ms),
        if (decide (100 - cfg.max_error_rate_percent ≤ sr) &&
              decide ((m.get_phase_stats runtimeStr).p95 < cfg.max_p95_latency_ms)) then []
        else
          (if decide (100 - cfg.max_error_rate_percent ≤ sr) then []
           else [Reason.errorRate (100 - sr) cfg.max_error_rate_percent]) ++
          (if decide ((m.get_phase_stats runtimeStr).p95 < cfg.max_p95_latency_ms) then []
           else [Reason.p95 (m.get_phase_stats runtimeStr).p95 cfg.max_p95_latency_ms])) := by
  simp only [print_results_rich]
  rw [hsr]

/-- C1: on the verdict path, `passed` is true iff the runtime error rate
(`100 - success_rate`) is at most `max_error_rate_percent` AND the runtime
p95 is strictly below `max_p95_latency_ms`; both sub-conditions are
evaluated independently, a reason carrying the measured value and the
violated threshold is emitted for every violated sub-condition, and a
passing verdict has no reasons.  (The verdict only exists when the runtime
phase recorded at least one request - otherwise `print_results` raises
`KeyError` before producing it.) -/
theorem C1_verdict_formula (m : MetricsCollector) (cfg : Thresholds)
    (h : m.runtime_requests ≠ []) :
    ∃ (sr : ℚ) (passed : Bool) (reasons : List Reason),
      (m.get_phase_stats runtimeStr).success_rate = some sr ∧
      print_results_rich m cfg = some (passed, reasons) ∧
      (passed = true ↔
        (100 - sr ≤ cfg.max_error_rate_percent ∧
         (m.get_phase_stats runtimeStr).p95 < cfg.max_p95_latency_ms)) ∧
      (passed = true → reasons = []) ∧
      (passed = false → reasons ≠ []) ∧
      (cfg.max_error_rate_percent < 100 - sr →
        Reason.errorRate (100 - sr) cfg.max_error_rate_percent ∈ reasons) ∧
      (cfg.max_p95_latency_ms ≤ (m.get_phase_stats runtimeStr).p95 →
        Reason.p95 (m.get_phase_stats runtimeStr).p95 cfg.max_p95_latency_ms ∈ reasons) ∧
      reasons.length = ((if cfg.max_error_rate_percent < 100 - sr then 1 else 0) +
        (if cfg.max_p95_latency_ms ≤ (m.get_phase_stats runtimeStr).p95 then 1 else 0)) := by
  have hsr : (m.get_phase_stats runtimeStr).success_rate =
      some (((m.runtime_requests.filter (·.success)).length : ℚ) /
        (m.runtime_requests.length : ℚ) * 100) := by
    rw [phase_stats_runtime m h]
  set sr := ((m.runtime_requests.filter (·.success)).length : ℚ) /
    (m.runtime_requests.length : ℚ) * 100 with hsrdef
  set p95v := (m.get_phase_stats runtimeStr).p95 with hp95def
  have hrw := print_results_rich_eq m cfg sr hsr
  have hrate : (100 - cfg.max_error_rate_percent ≤ sr) ↔
      (100 - sr ≤ cfg.max_error_rate_percent) := by constructor <;> intro <;> linarith
  by_cases hr : 100 - cfg.max_error_rate_percent ≤ sr <;>
    by_cases hp : p95v < cfg.max_p95_latency_ms
  · have hr' : ¬(cfg.max_error_rate_percent < 100 - sr) := by
      simp only [not_lt]; linarith
    have hp' : ¬(cfg.max_p95_latency_ms ≤ p95v) := not_le.mpr hp
    refine ⟨sr, _, _, hsr, hrw, ?_, ?_, ?_, ?_, ?_, ?_⟩ <;>
      simp [hr, hp, hr', hp', hrate.mp hr]
  · have hr' : ¬(cfg.max_error_rate_percent < 100 - sr) := by
      simp only [not_lt]; linarith
    have hp' : cfg.max_p95_latency_ms ≤ p95v := not_lt.mp hp
    refine ⟨sr, _, _, hsr, hrw, ?_, ?_, ?_, ?_, ?_, ?_⟩ <;>
      simp [hr, hp, hr', hp']
  · have hr' : cfg.max_error_rate_percent < 100 - sr := by
      have := not_le.mp hr; linarith
    have hp' : ¬(cfg.max_p95_latency_ms ≤ p95v) := not_le.mpr hp
    refine ⟨sr, _, _, hsr, hrw, ?_, ?_, ?_, ?_, ?_, ?_⟩ <;>
      simp [hr, hp, hr', hp'] <;>
      first
        | linarith
        | (intro hcon; linarith)
  · have hr' : cfg.max_error_rate_percent < 100 - sr := by
      have := not_le.mp hr; linarith
    have hp' : cfg.max_p95_latency_ms ≤ p95v := not_lt.mp hp
    refine ⟨sr, _, _, hsr, hrw, ?_, ?_, ?_, ?_, ?_, ?_⟩ <;>
      simp [hr, hp, hr', hp'] <;>
      first
        | linarith
        | (intro hcon; linarith)

/-- Witness for C1 on the spec's failing example: ten runtime requests of
latency 300 with one failure (success rate 90, p95 300) against thresholds
(5, 200). -/
theorem C1_verdict_witness :
    ∃ (sr : ℚ) (passed : Bool) (reasons : List Reason),
      (mVerdict.get_phase_stats runtimeStr).success_rate = some sr ∧
      print_results_rich mVerdict demoThresholds = some (passed, reasons) ∧
      (passed = true ↔
        (100 - sr ≤ demoThresholds.max_error_rate_percent ∧
         (mVerdict.get_phase_stats runtimeStr).p95 < demoThresholds.max_p95_latency_ms)) ∧
      (passed = true → reasons = []) ∧
      (passed = false → reasons ≠ []) ∧
      (demoThresholds.max_error_rate_percent < 100 - sr →
        Reason.errorRate (100 - sr) demoThresholds.max_error_rate_percent ∈ reasons) ∧
      (demoThresholds.max_p95_latency_ms ≤ (mVerdict.get_phase_stats runtimeStr).p95 →
        Reason.p95 (mVerdict.get_phase_stats runtimeStr).p95
          demoThresholds.max_p95_latency_ms ∈ reasons) ∧
      reasons.length =
        ((if demoThresholds.max_error_rate_percent < 100 - sr then 1 else 0) +
         (if demoThresholds.max_p95_latency_ms ≤
            (mVerdict.get_phase_stats runtimeStr).p95 then 1 else 0)) :=
  C1_verdict_formula mVerdict demoThresholds (by decide)

/-- C4 (amended): for a run that reaches a verdict, on the rich output path
the process exit status is 0 exactly when the verdict formula (error rate
within `max_error_rate_percent` AND p95 below `max_p95_latency_ms`) holds and
1 otherwise; but on the fallback output path (rich unavailable) the exit
status is 0 exactly when the runtime success rate is at least the hard-coded
95 percent, ignoring both configured thresholds and the p95 entirely. -/
theorem C4_exit_code_paths (m : MetricsCollector) (cfg : Thresholds)
    (h : m.runtime_requests ≠ []) :
    ∃ sr : ℚ, (m.get_phase_stats runtimeStr).success_rate = some sr ∧
      mainExitCode true m cfg =
        some (if specVerdictFormula (100 - sr) ((m.get_phase_stats runtimeStr).p95) cfg
          then 0 else 1) ∧
      mainExitCode false m cfg = some (if 95 ≤ sr then 0 else 1) := by
  have hsr : (m.get_phase_stats runtimeStr).success_rate =
      some (((m.runtime_requests.filter (·.success)).length : ℚ) /
        (m.runtime_requests.length : ℚ) * 100) := by
    rw [phase_stats_runtime m h]
  set sr := ((m.runtime_requests.filter (·.success)).length : ℚ) /
    (m.runtime_requests.length : ℚ) * 100 with hsrdef
  refine ⟨sr, hsr, ?_, ?_⟩
  · have hrw := print_results_rich_eq m cfg sr hsr
    have hform : specVerdictFormula (100 - sr) ((m.get_phase_stats runtimeStr).p95) cfg =
        (decide (100 - cfg.max_error_rate_percent ≤ sr) &&
          decide ((m.get_phase_stats runtimeStr).p95 < cfg.max_p95_latency_ms)) := by
      unfold specVerdictFormula
      by_cases h1 : 100 - cfg.max_error_rate_percent ≤ sr <;>
        by_cases h2 : (m.get_phase_stats runtimeStr).p95 < cfg.max_p95_latency_ms <;>
        · have h1' : (100 - sr ≤ cfg.max_error_rate_percent) ↔
              (100 - cfg.max_error_rate_percent ≤ sr) := by
            constructor <;> intro <;> linarith
          simp [h1, h2, h1']
    simp only [mainExitCode, print_results, if_pos, hrw, Option.map_some, hform]
    cases hb : (decide (100 - cfg.max_error_rate_percent ≤ sr) &&
        decide ((m.get_phase_stats runtimeStr).p95 < cfg.max_p95_latency_ms)) <;> simp [hb]
  · simp only [mainExitCode, print_results, print_results_plain, hsr, Option.map_some]
    by_cases h95 : 95 ≤ sr <;> simp [h95]

/-- C4 counterexample: a runtime consisting of one successful request of
latency 300 against thresholds (5, 200).  The verdict formula fails (p95 300
is not below 200) and the rich path exits 1, but the fallback output path
exits 0 because the hard-coded success-rate check passes - so the exit
status does not agree with the verdict formula on every output path. -/
theorem C4_exit_code_counterexample :
    mainExitCode false mSlowOk demoThresholds = some 0 ∧
    (∃ sr, (mSlowOk.get_phase_stats runtimeStr).success_rate = some sr ∧
      specVerdictFormula (100 - sr) ((mSlowOk.get_phase_stats runtimeStr).p95)
        demoThresholds = false) ∧
    mainExitCode true mSlowOk demoThresholds = some 1 := by
  have h : mSlowOk.runtime_requests ≠ [] := by decide
  have hsr : (mSlowOk.get_phase_stats runtimeStr).success_rate = some 100 := by
    rw [phase_stats_runtime mSlowOk h]
    norm_num [mSlowOk, MetricsCollector.record, MetricsCollector.set_phase,
      MetricsCollector.init, demoMetric, runtime_ne_setup_eq]
  have hp95 : (mSlowOk.get_phase_stats runtimeStr).p95 = 300 := by
    rw [phase_stats_runtime mSlowOk h]
    norm_num [mSlowOk, MetricsCollector.record, MetricsCollector.set_phase,
      MetricsCollector.init, demoMetric, runtime_ne_setup_eq, pySorted]
  refine ⟨?_, ⟨100, hsr, ?_⟩, ?_⟩
  · simp only [mainExitCode, print_results, print_results_plain, hsr, Option.map_some]
    norm_num
  · rw [hp95]
    simp [specVerdictFormula, demoThresholds]
    norm_num
  · have hrw := print_results_rich_eq mSlowOk demoThresholds 100 hsr
    rw [hp95] at hrw
    simp only [mainExitCode, print_results, if_pos, hrw, Option.map_some]
    norm_num [demoThresholds]

/-- Witness for C4 at the counterexample collector and thresholds. -/
theorem C4_exit_code_witness :
    ∃ sr : ℚ, (mSlowOk.get_phase_stats runtimeStr).success_rate = some sr ∧
      mainExitCode true mSlowOk demoThresholds =
        some (if specVerdictFormula (100 - sr) ((mSlowOk.get_phase_stats runtimeStr).p95)
          demoThresholds then 0 else 1) ∧
      mainExitCode false mSlowOk demoThresholds = some (if 95 ≤ sr then 0 else 1) :=
  C4_exit_code_paths mSlowOk demoThresholds (by decide)

/-! ## C5: the quantile index convention -/

theorem pySorted_length (l : List ℚ) : (pySorted l).length = l.length :=
  (List.perm_insertionSort _ l).length_eq

theorem floor_mul_div (n a b : ℕ) :
    ⌊(n : ℚ) * ((a : ℚ) / (b : ℚ))⌋₊ = n * a / b := by
  rw [mul_div_assoc', show ((n:ℚ) * (a:ℚ)) = ((n*a : ℕ) : ℚ) by push_cast; ring,
    Nat.floor_div_nat, Nat.floor_natCast]

theorem specQuantile_95 (l : List ℚ) (hl : l ≠ []) :
    specQuantile l (95/100) = (pySorted l).getD (min (l.length * 95 / 100) (l.length - 1)) 0 := by
  unfold specQuantile
  rw [if_neg hl]
  have hq : ((95:ℚ)/100) = (((95:ℕ)):ℚ)/(((100:ℕ)):ℚ) := by norm_num
  rw [hq, floor_mul_div l.length 95 100]

theorem specQuantile_99 (l : List ℚ) (hl : l ≠ []) :
    specQuantile l (99/100) = (pySorted l).getD (min (l.length * 99 / 100) (l.length - 1)) 0 := by
  unfold specQuantile
  rw [if_neg hl]
  have hq : ((99:ℚ)/100) = (((99:ℕ)):ℚ)/(((100:ℕ)):ℚ) := by norm_num
  rw [hq, floor_mul_div l.length 99 100]

theorem specQuantile_half (l : List ℚ) (hl : l ≠ []) :
    specQuantile l (1/2) = (pySorted l).getD (min (l.length / 2) (l.length - 1)) 0 := by
  unfold specQuantile
  rw [if_neg hl]
  have hq : ((1:ℚ)/2) = (((1:ℕ)):ℚ)/(((2:ℕ)):ℚ) := by norm_num
  rw [hq, floor_mul_div l.length 1 2, Nat.mul_one]

theorem idx95_le (n : ℕ) (hn : 1 ≤ n) : n * 95 / 100 ≤ n - 1 := by
  have h : n * 95 / 100 < n := by
    rw [Nat.div_lt_iff_lt_mul (by norm_num)]
    omega
  omega

theorem idx99_le (n : ℕ) (hn : 1 ≤ n) : n * 99 / 100 ≤ n - 1 := by
  have h : n * 99 / 100 < n := by
    rw [Nat.div_lt_iff_lt_mul (by norm_num)]
    omega
  omega

theorem endpoint_p95_spec (s : EndpointStats) : s.p95 = specQuantile s.latencies (95/100) := by
  unfold EndpointStats.p95
  by_cases hl : s.latencies = []
  · simp [hl, specQuantile]
  · rw [if_neg hl, specQuantile_95 _ hl]
    dsimp only
    rw [pySorted_length]

theorem endpoint_p99_spec (s : EndpointStats) : s.p99 = specQuantile s.latencies (99/100) := by
  unfold EndpointStats.p99
  by_cases hl : s.latencies = []
  · simp [hl, specQuantile]
  · rw [if_neg hl, specQuantile_99 _ hl]
    dsimp only
    rw [pySorted_length]

theorem endpoint_p50_spec_odd (s : EndpointStats) (hodd : s.latencies.length % 2 = 1) :
    s.p50 = specQuantile s.latencies (1/2) := by
  have hl : s.latencies ≠ [] := by
    intro he
    rw [he] at hodd
    simp at hodd
  have hn : 1 ≤ s.latencies.length := List.length_pos.mpr hl
  unfold EndpointStats.p50 pyMedian
  rw [if_neg hl, specQuantile_half _ hl]
  have hmin : min (s.latencies.length / 2) (s.latencies.length - 1) =
      s.latencies.length / 2 := by
    apply min_eq_left
    omega
  rw [hmin]
  simp only [pySorted_length]
  rw [if_neg (by omega), if_pos hodd]

theorem phase_stats_quantiles (m : MetricsCollector) (ph : Str) :
    (m.get_phase_stats ph).p50 =
      specQuantile (((if ph = setupStr then m.setup_requests else m.runtime_requests)).map
        (·.latency_ms)) (1/2) ∧
    (m.get_phase_stats ph).p95 =
      specQuantile (((if ph = setupStr then m.setup_requests else m.runtime_requests)).map
        (·.latency_ms)) (95/100) ∧
    (m.get_phase_stats ph).p99 =
      specQuantile (((if ph = setupStr then m.setup_requests else m.runtime_requests)).map
        (·.latency_ms)) (99/100) := by
  set reqs := (if ph = setupStr then m.setup_requests else m.runtime_requests) with hreqs
  by_cases hreq : reqs = []
  · have hmap : reqs.map (·.latency_ms) = [] := by rw [hreq]; rfl
    unfold MetricsCollector.get_phase_stats
    rw [← hreqs, if_pos hreq, hmap]
    simp [specQuantile]
  · have hmap : reqs.map (·.latency_ms) ≠ [] := by
      simpa using hreq
    have hlen : (reqs.map (·.latency_ms)).length = reqs.length := List.length_map _ _
    have hn : 1 ≤ reqs.length := List.length_pos.mpr hreq
    unfold MetricsCollector.get_phase_stats
    rw [← hreqs, if_neg hreq]
    dsimp only
    rw [specQuantile_half _ hmap, specQuantile_95 _ hmap, specQuantile_99 _ hmap,
      pySorted_length, hlen,
      min_eq_left (by omega),
      min_eq_left (idx95_le _ (by omega)),
      min_eq_left (idx99_le _ (by omega))]
    exact ⟨rfl, rfl, rfl⟩

/-- C5 counterexample: the per-endpoint `p50` accessor is
`statistics.median`, which for the two recorded samples 1 and 2 returns 3/2,
while the claimed convention (sample at index `floor(n * q)` clamped) yields
the sample 2 - so the claim fails on the `p50` accessor at an even sample
count. -/
theorem C5_p50_median_counterexample :
    (statsAt mTwoLats demoKey).latencies = [1, 2] ∧
    (statsAt mTwoLats demoKey).p50 = 3/2 ∧
    specQuantile (statsAt mTwoLats demoKey).latencies (1/2) = 2 ∧
    (statsAt mTwoLats demoKey).p50 ≠ specQuantile (statsAt mTwoLats demoKey).latencies (1/2) := by
  have hlat : (statsAt mTwoLats demoKey).latencies = [1, 2] := by decide
  have hsorted : pySorted [(1:ℚ), 2] = [1, 2] := by
    simp [pySorted, List.insertionSort, List.orderedInsert]
  have hp50 : (statsAt mTwoLats demoKey).p50 = 3/2 := by
    rw [EndpointStats.p50, if_neg (by rw [hlat]; simp), hlat, pyMedian]
    rw [hsorted]
    norm_num
  have hspec : specQuantile (statsAt mTwoLats demoKey).latencies (1/2) = 2 := by
    rw [hlat, specQuantile_half _ (by simp), hsorted]
    norm_num
  exact ⟨hlat, hp50, hspec, by rw [hp50, hspec]; norm_num⟩

/-- C5 (amended): the `floor(n*q)` clamped-index convention (empty input
giving 0) holds for the per-endpoint `p95`/`p99` accessors and for the
per-phase `p50`/`p95`/`p99` statistics (whose unclamped indices are provably
in range); the per-endpoint `p50` follows it only for an odd number of
samples, being `statistics.median` - the mean of the two central samples -
for even counts; every accessor returns 0 on an empty sample list. -/
theorem C5_quantile_index_convention :
    (∀ s : EndpointStats, s.p95 = specQuantile s.latencies (95/100) ∧
      s.p99 = specQuantile s.latencies (99/100)) ∧
    (∀ s : EndpointStats, s.latencies.length % 2 = 1 →
      s.p50 = specQuantile s.latencies (1/2)) ∧
    (∀ (m : MetricsCollector) (ph : Str),
      (m.get_phase_stats ph).p50 =
        specQuantile (((if ph = setupStr then m.setup_requests else m.runtime_requests)).map
          (·.latency_ms)) (1/2) ∧
      (m.get_phase_stats ph).p95 =
        specQuantile (((if ph = setupStr then m.setup_requests else m.runtime_requests)).map
          (·.latency_ms)) (95/100) ∧
      (m.get_phase_stats ph).p99 =
        specQuantile (((if ph = setupStr then m.setup_requests else m.runtime_requests)).map
          (·.latency_ms)) (99/100)) ∧
    (∀ q : ℚ, specQuantile [] q = 0) ∧
    (∀ s : EndpointStats, s.latencies = [] → s.p50 = 0 ∧ s.p95 = 0 ∧ s.p99 = 0) := by
  refine ⟨fun s => ⟨endpoint_p95_spec s, endpoint_p99_spec s⟩,
    fun s h => endpoint_p50_spec_odd s h,
    phase_stats_quantiles,
    fun q => by simp [specQuantile],
    fun s h => ?_⟩
  unfold EndpointStats.p50 EndpointStats.p95 EndpointStats.p99
  simp [h]

/-- Witness for C5 at an odd (three-sample) bucket and an empty bucket. -/
theorem C5_quantile_witness :
    (statsAt mThreeLats demoKey).p50 =
      specQuantile (statsAt mThreeLats demoKey).latencies (1/2) ∧
    emptyStats.p50 = 0 ∧ emptyStats.p95 = 0 ∧ emptyStats.p99 = 0 :=
  ⟨C5_quantile_index_convention.2.1 (statsAt mThreeLats demoKey) (by decide),
   C5_quantile_index_convention.2.2.2.2 emptyStats (by decide)⟩

/-! ## C6: the pagination loop stops at the first stopping response -/

theorem api_call_len {σ : Type} (tr : Tr σ) (st : RunState σ)
    (method endpoint user : Str) (body : Option Str) (expected : List Nat) :
    ((api_call tr st method endpoint user body expected).2).mc.requests.length =
      st.mc.requests.length + 1 := by
  rcases api_call_shape tr st method endpoint user body expected with ⟨x, ts', hx⟩
  rw [hx]
  simp [record_requests]

theorem pageTrace_requests {σ : Type}
    (fetch : RunState σ → Option Str → ApiResp × RunState σ)
    (hfetch : ∀ s c, ((fetch s c).2).mc.requests.length = s.mc.requests.length + 1) :
    ∀ (k : Nat) (st : RunState σ) (cursor : Option Str),
      (pageTrace fetch st cursor k).2.mc.requests.length =
        st.mc.requests.length + (k + 1) := by
  intro k
  induction k with
  | zero =>
    intro st cursor
    simp only [pageTrace]
    rcases hr : fetch st cursor with ⟨r, st'⟩
    have := hfetch st cursor
    rw [hr] at this
    simpa using this
  | succ k ih =>
    intro st cursor
    simp only [pageTrace]
    rcases hr : fetch st cursor with ⟨r, st'⟩
    have h1 := hfetch st cursor
    rw [hr] at h1
    have h2 := ih st' r.nextCursor
    simp only at h1 h2 ⊢
    omega

theorem paginate_stops_at_first {σ : Type}
    (fetch : RunState σ → Option Str → ApiResp × RunState σ) :
    ∀ (k fuel pages : Nat) (st : RunState σ) (cursor : Option Str),
      stopsPaging (pageTrace fetch st cursor k).1 = true →
      (∀ j < k, stopsPaging (pageTrace fetch st cursor j).1 = false) →
      k < fuel →
      paginateLoop fetch fuel st cursor pages =
        some (pages + (k + 1), (pageTrace fetch st cursor k).2) := by
  intro k
  induction k with
  | zero =>
    intro fuel pages st cursor hstop _ hfuel
    obtain ⟨f, rfl⟩ : ∃ f, fuel = f + 1 := ⟨fuel - 1, by omega⟩
    rcases hr : fetch st cursor with ⟨r, st'⟩
    rw [show pageTrace fetch st cursor 0 = (r, st') by simp [pageTrace, hr]] at hstop ⊢
    simp only [paginateLoop, hr]
    by_cases h1 : r.success = false ∨ r.hasData = false
    · rw [if_pos h1]
    · rw [if_neg h1]
      push_neg at h1
      obtain ⟨hs, hd⟩ := h1
      simp only [Bool.not_eq_false] at hs hd
      simp only [stopsPaging, hs, hd] at hstop
      cases hc : r.nextCursor with
      | none => rfl
      | some c =>
        rw [hc] at hstop
        simp only [Bool.not_true, Bool.false_or] at hstop
        have hce : c = [] := by simpa using hstop
        simp [hce]
  | succ k ih =>
    intro fuel pages st cursor hstop hbefore hfuel
    obtain ⟨f, rfl⟩ : ∃ f, fuel = f + 1 := ⟨fuel - 1, by omega⟩
    rcases hr : fetch st cursor with ⟨r, st'⟩
    have h0 := hbefore 0 (Nat.succ_pos k)
    rw [show pageTrace fetch st cursor 0 = (r, st') by simp [pageTrace, hr]] at h0
    simp only [stopsPaging] at h0
    have hs : r.success = true := by
      cases h : r.success
      · rw [h] at h0; simp at h0
      · rfl
    have hd : r.hasData = true := by
      cases h : r.hasData
      · rw [h] at h0; simp [hs, h] at h0
      · rfl
    rcases hc : r.nextCursor with - | c
    · rw [hs, hd, hc] at h0; simp at h0
    have hcne : ¬(c = []) := by
      rw [hs, hd, hc] at h0
      simpa using h0
    have htr : pageTrace fetch st cursor (k + 1) = pageTrace fetch st' (some c) k := by
      simp [pageTrace, hr, hc]
    rw [htr] at hstop ⊢
    have hbefore' : ∀ j < k, stopsPaging (pageTrace fetch st' (some c) j).1 = false := by
      intro j hj
      have := hbefore (j + 1) (by omega)
      rw [show pageTrace fetch st cursor (j + 1) = pageTrace fetch st' (some c) j by
        simp [pageTrace, hr, hc]] at this
      exact this
    have harith : pages + 1 + (k + 1) = pages + (k + 1 + 1) := by omega
    have hih := ih f (pages + 1) st' (some c) hstop hbefore' (by omega)
    have hcond : ¬(r.success = false ∨ r.hasData = false) := by simp [hs, hd]
    simp only [paginateLoop, hr, if_neg hcond, hc, if_neg hcne]
    rw [hih, harith]

/-- C6: the pagination helpers (`paginate_timeline` and `paginate_tweets`)
start with no cursor, issue exactly one request per iteration, stop exactly
at the first response that is unsuccessful, carries no payload, or has an
absent/empty next-cursor, and otherwise repeat with the returned cursor:
when the induced response trace first stops at index `k` (within fuel), the
helper returns `k + 1` pages and records `k + 1` outcomes.  Against the fake
endpoint answering cursors "a", "b", "" it issues exactly 3 requests - the
second and third carrying the previous response's cursor - and stops. -/
theorem C6_pagination_stops :
    (∀ (σ : Type) (tr : Tr σ) (user : Str) (limit : Nat) (st : RunState σ) (fuel k : Nat),
      stopsPaging (pageTrace (fun s c => get_timeline tr s user limit c) st none k).1 = true →
      (∀ j < k,
        stopsPaging (pageTrace (fun s c => get_timeline tr s user limit c) st none j).1 =
          false) →
      k < fuel →
      paginate_timeline tr fuel st user limit =
        some (k + 1, (pageTrace (fun s c => get_timeline tr s user limit c) st none k).2) ∧
      (pageTrace (fun s c => get_timeline tr s user limit c) st none k).2.mc.requests.length =
        st.mc.requests.length + (k + 1)) ∧
    (∀ (σ : Type) (tr : Tr σ) (user : Str) (limit : Nat) (st : RunState σ) (fuel k : Nat),
      stopsPaging (pageTrace (fun s c => get_user_tweets tr s user limit c) st none k).1 =
        true →
      (∀ j < k,
        stopsPaging (pageTrace (fun s c => get_user_tweets tr s user limit c) st none j).1 =
          false) →
      k < fuel →
      paginate_tweets tr fuel st user limit =
        some (k + 1, (pageTrace (fun s c => get_user_tweets tr s user limit c) st none k).2) ∧
      (pageTrace (fun s c => get_user_tweets tr s user limit c) st none
        k).2.mc.requests.length = st.mc.requests.length + (k + 1)) ∧
    (∃ stF : RunState (List Str),
      paginate_timeline abcTr 5 (initRunState []) ("u").data 10 = some (3, stF) ∧
      stF.ts = [("/api/v1/users/u/timeline?limit=10").data,
                ("/api/v1/users/u/timeline?limit=10&cursor=a").data,
                ("/api/v1/users/u/timeline?limit=10&cursor=b").data] ∧
      stF.mc.requests.length = 3) := by
  have htime : ∀ (σ : Type) (tr : Tr σ) (user : Str) (limit : Nat) (st : RunState σ)
      (fuel k : Nat),
      stopsPaging (pageTrace (fun s c => get_timeline tr s user limit c) st none k).1 = true →
      (∀ j < k,
        stopsPaging (pageTrace (fun s c => get_timeline tr s user limit c) st none j).1 =
          false) →
      k < fuel →
      paginate_timeline tr fuel st user limit =
        some (k + 1, (pageTrace (fun s c => get_timeline tr s user limit c) st none k).2) ∧
      (pageTrace (fun s c => get_timeline tr s user limit c) st none k).2.mc.requests.length =
        st.mc.requests.length + (k + 1) := by
    intro σ tr user limit st fuel k h1 h2 h3
    constructor
    · have h := paginate_stops_at_first (fun s c => get_timeline tr s user limit c)
        k fuel 0 st none h1 h2 h3
      rw [Nat.zero_add] at h
      exact h
    · exact pageTrace_requests _
        (fun s c => api_call_len tr s mGET (timelineURL user limit c) user none [200]) k st none
  refine ⟨htime, ?_, ?_⟩
  · intro σ tr user limit st fuel k h1 h2 h3
    constructor
    · have h := paginate_stops_at_first (fun s c => get_user_tweets tr s user limit c)
        k fuel 0 st none h1 h2 h3
      rw [Nat.zero_add] at h
      exact h
    · exact pageTrace_requests _
        (fun s c => api_call_len tr s mGET (userTweetsURL user limit c) user none [200]) k st none
  · obtain ⟨heq, hlen⟩ := htime (List Str) abcTr ("u").data 10 (initRunState []) 5 2
      (by decide) (by decide) (by decide)
    refine ⟨_, heq, by decide, by rw [hlen]; rfl⟩

/-- Witness for C6 at the concrete a/b/empty cursor endpoint. -/
theorem C6_pagination_witness :
    paginate_timeline abcTr 5 (initRunState []) ("u").data 10 =
      some (3, (pageTrace (fun s c => get_timeline abcTr s ("u").data 10 c)
        (initRunState []) none 2).2) :=
  (C6_pagination_stops.1 (List Str) abcTr ("u").data 10 (initRunState []) 5 2
    (by decide) (by decide) (by decide)).1

/-! ## C2: counting the outcomes of the end-to-end scenario -/

theorem sameCtx_refl {σ : Type} (st : RunState σ) : SameCtx st st :=
  ⟨rfl, rfl, rfl, rfl, rfl⟩

theorem sameCtx_trans {σ : Type} {a b c : RunState σ} (h1 : SameCtx a b)
    (h2 : SameCtx b c) : SameCtx a c :=
  ⟨h1.1.trans h2.1, h1.2.1.trans h2.2.1, h1.2.2.1.trans h2.2.2.1,
   h1.2.2.2.1.trans h2.2.2.2.1, h1.2.2.2.2.trans h2.2.2.2.2⟩

theorem runStep_sameCtx {σ : Type} {st st' : RunState σ} {n : Nat}
    (h : RunStep st st' n) : SameCtx st' st :=
  ⟨h.1, h.2.2.1, h.2.2.2.1, h.2.2.2.2.1, h.2.2.2.2.2.1⟩

theorem runStep_refl {σ : Type} (st : RunState σ) : RunStep st st 0 :=
  ⟨rfl, rfl, rfl, rfl, rfl, rfl, fun r hr => Or.inl hr⟩

theorem runStep_trans {σ : Type} {a b c : RunState σ} {m n : Nat}
    (h1 : RunStep a b m) (h2 : RunStep b c n) : RunStep a c (m + n) := by
  refine ⟨h2.1.trans h1.1, ?_, h2.2.2.1.trans h1.2.2.1, h2.2.2.2.1.trans h1.2.2.2.1,
    h2.2.2.2.2.1.trans h1.2.2.2.2.1, h2.2.2.2.2.2.1.trans h1.2.2.2.2.2.1, ?_⟩
  · rw [h2.2.1, h1.2.1]
    omega
  · intro r hr
    rcases h2.2.2.2.2.2.2 r hr with h | h
    · exact h1.2.2.2.2.2.2 r h
    · exact Or.inr h

theorem record_runStep {σ : Type} (st : RunState σ) (x : RequestMetrics) (ts' : σ)
    (hph : st.mc.phase = runtimeStr) (hx : x.success = true) :
    RunStep st { st with mc := st.mc.record x, ts := ts' } 1 := by
  refine ⟨record_phase _ _, ?_, rfl, rfl, rfl, rfl, ?_⟩
  · rw [record_runtime_of_runtime _ _ hph]
    simp
  · intro r hr
    rw [record_runtime_of_runtime _ _ hph] at hr
    rcases List.mem_append.mp hr with h | h
    · exact Or.inl h
    · right
      rw [List.mem_singleton.mp h]
      exact hx

theorem fake_api_call_runStep (st : RunState Unit) (method endpoint user : Str)
    (body : Option Str) (expected : List Nat) (hph : st.mc.phase = runtimeStr)
    (hexp : (if method = mPOST then 201 else if method = mDELETE then 204 else 200) ∈
      expected) :
    RunStep st (api_call fakeTr st method endpoint user body expected).2 1 := by
  obtain ⟨hl, -⟩ := api_call_ok_last fakeTr st method endpoint user body expected
    ⟨(if method = mPOST then 201 else if method = mDELETE then 204 else 200), true, none, 0, 1⟩
    () rfl
  rcases api_call_shape fakeTr st method endpoint user body expected with ⟨x, ts', hx⟩
  have hxl : lastMetric (api_call fakeTr st method endpoint user body expected).2 = x := by
    rw [hx]
    simp [lastMetric, record_requests, getLastD_append_single]
  have hxs : x.success = true := by
    rw [← hxl, hl]
    simpa using hexp
  rw [hx]
  exact record_runStep st x ts' hph hxs

theorem foldl_runStep {σ α : Type} (l : List α) (f : RunState σ → α → RunState σ)
    (k : Nat) (st0 : RunState σ)
    (H : ∀ s x, x ∈ l → SameCtx s st0 → RunStep s (f s x) k) :
    ∀ st, SameCtx st st0 → RunStep st (l.foldl f st) (k * l.length) := by
  induction l with
  | nil =>
    intro st _
    simpa using runStep_refl st
  | cons x xs ih =>
    intro st hctx
    have hstep : RunStep st (f st x) k := H st x (List.mem_cons_self x xs) hctx
    have hctx' : SameCtx (f st x) st0 := sameCtx_trans (runStep_sameCtx hstep) hctx
    have htail := ih (fun s y hy hc => H s y (List.mem_cons_of_mem x hy) hc) (f st x) hctx'
    have := runStep_trans hstep htail
    simpa [List.length_cons, Nat.mul_succ, Nat.add_comm] using this

theorem foldlM_runStep {σ α : Type} (l : List α)
    (f : RunState σ → α → Option (RunState σ)) (k : Nat) (st0 : RunState σ)
    (H : ∀ s x, x ∈ l → SameCtx s st0 → ∃ s', f s x = some s' ∧ RunStep s s' k) :
    ∀ st, SameCtx st st0 →
      ∃ st', l.foldlM f st = some st' ∧ RunStep st st' (k * l.length) := by
  induction l with
  | nil =>
    intro st _
    exact ⟨st, rfl, by simpa using runStep_refl st⟩
  | cons x xs ih =>
    intro st hctx
    obtain ⟨s1, hs1, hstep⟩ := H st x (List.mem_cons_self x xs) hctx
    have hctx' : SameCtx s1 st0 := sameCtx_trans (runStep_sameCtx hstep) hctx
    obtain ⟨st', hst', htail⟩ :=
      ih (fun s y hy hc => H s y (List.mem_cons_of_mem x hy) hc) s1 hctx'
    refine ⟨st', ?_, ?_⟩
    · rw [List.foldlM_cons, hs1]
      exact hst'
    · have := runStep_trans hstep htail
      simpa [List.length_cons, Nat.mul_succ, Nat.add_comm] using this

theorem fake_get_timeline_resp (st : RunState Unit) (u : Str) (lim : Nat)
    (c : Option Str) :
    (get_timeline fakeTr st u lim c).1 = ⟨true, 200, true, none⟩ := rfl

theorem fake_get_user_tweets_resp (st : RunState Unit) (u : Str) (lim : Nat)
    (c : Option Str) :
    (get_user_tweets fakeTr st u lim c).1 = ⟨true, 200, true, none⟩ := rfl

theorem fake_paginate_timeline_step (st : RunState Unit) (u : Str) (lim fuel : Nat)
    (hph : st.mc.phase = runtimeStr) (hf : 1 ≤ fuel) :
    ∃ st', paginate_timeline fakeTr fuel st u lim = some (1, st') ∧ RunStep st st' 1 := by
  obtain ⟨f, rfl⟩ : ∃ f, fuel = f + 1 := ⟨fuel - 1, by omega⟩
  rcases hgt : get_timeline fakeTr st u lim none with ⟨resp, st'⟩
  have hresp : resp = ⟨true, 200, true, none⟩ := by
    have h := fake_get_timeline_resp st u lim none
    rw [hgt] at h
    exact h
  subst hresp
  refine ⟨st', ?_, ?_⟩
  · show paginateLoop (fun s c => get_timeline fakeTr s u lim c) (f + 1) st none 0 =
      some (1, st')
    simp [paginateLoop, hgt]
  · have h2 : (get_timeline fakeTr st u lim none).2 = st' := by rw [hgt]
    rw [← h2]
    exact fake_api_call_runStep st mGET (timelineURL u lim none) u none [200] hph (by decide)

theorem fake_paginate_tweets_step (st : RunState Unit) (u : Str) (lim fuel : Nat)
    (hph : st.mc.phase = runtimeStr) (hf : 1 ≤ fuel) :
    ∃ st', paginate_tweets fakeTr fuel st u lim = some (1, st') ∧ RunStep st st' 1 := by
  obtain ⟨f, rfl⟩ : ∃ f, fuel = f + 1 := ⟨fuel - 1, by omega⟩
  rcases hgt : get_user_tweets fakeTr st u lim none with ⟨resp, st'⟩
  have hresp : resp = ⟨true, 200, true, none⟩ := by
    have h := fake_get_user_tweets_resp st u lim none
    rw [hgt] at h
    exact h
  subst hresp
  refine ⟨st', ?_, ?_⟩
  · show paginateLoop (fun s c => get_user_tweets fakeTr s u lim c) (f + 1) st none 0 =
      some (1, st')
    simp [paginateLoop, hgt]
  · have h2 : (get_user_tweets fakeTr st u lim none).2 = st' := by rw [hgt]
    rw [← h2]
    exact fake_api_call_runStep st mGET (userTweetsURL u lim none) u none [200] hph (by decide)

theorem fake_phase4_step (cfg : Config) (st : RunState Unit)
    (hph : st.mc.phase = runtimeStr) :
    RunStep st (phase_create_tweets fakeTr cfg st)
      (cfg.tweets_per_user * st.all_users.length) := by
  unfold phase_create_tweets
  have h := foldl_runStep (List.range cfg.tweets_per_user)
    (fun s _ => s.all_users.foldl (fun s2 user => (create_tweet fakeTr s2 user tweetContent).2) s)
    st.all_users.length st ?_ st (sameCtx_refl st)
  · simpa [Nat.mul_comm] using h
  · intro s _ _ hctx
    have hall : s.all_users = st.all_users := hctx.2.2.2.1
    dsimp only
    rw [hall]
    have hin := foldl_runStep st.all_users
      (fun s2 user => (create_tweet fakeTr s2 user tweetContent).2) 1 st ?_ s hctx
    · simpa using hin
    · intro s2 u _ hc2
      exact fake_api_call_runStep s2 mPOST ("/api/v1/tweets").data u (some tweetContent)
        [201] (hc2.1.trans hph) (by decide)

theorem fake_phase5_zero (cfg : Config) (fuel : Nat) (st : RunState Unit)
    (hreads : cfg.timeline_reads_per_user = 0) :
    phase_read_timelines fakeTr cfg fuel st = some st := by
  unfold phase_read_timelines
  rw [hreads]
  rfl

theorem fake_phase6_step (cfg : Config) (fuel : Nat) (st : RunState Unit)
    (hph : st.mc.phase = runtimeStr) (hf : 1 ≤ fuel) :
    ∃ st', phase_check_profiles fakeTr cfg fuel st = some st' ∧
      RunStep st st' (3 * st.all_users.length) := by
  unfold phase_check_profiles
  have h := foldlM_runStep st.all_users
    (fun s user =>
      ((paginate_tweets fakeTr fuel s user cfg.pagination_page_size).map (·.2)).map
        (fun s1 =>
          let s2 := (get_followers fakeTr s1 user 20).2
          (get_following fakeTr s2 user 20).2))
    3 st ?_ st (sameCtx_refl st)
  · obtain ⟨st', h1, h2⟩ := h
    exact ⟨st', h1, by simpa [Nat.mul_comm] using h2⟩
  · intro s u _ hctx
    obtain ⟨s1, hpag, hstep1⟩ := fake_paginate_tweets_step s u cfg.pagination_page_size fuel
      (hctx.1.trans hph) hf
    have hph1 : s1.mc.phase = runtimeStr := hstep1.1.trans (hctx.1.trans hph)
    have hstep2 : RunStep s1 (get_followers fakeTr s1 u 20).2 1 :=
      fake_api_call_runStep s1 mGET _ u none [200] hph1 (by decide)
    have hph2 : (get_followers fakeTr s1 u 20).2.mc.phase = runtimeStr :=
      hstep2.1.trans hph1
    have hstep3 : RunStep (get_followers fakeTr s1 u 20).2
        (get_following fakeTr (get_followers fakeTr s1 u 20).2 u 20).2 1 :=
      fake_api_call_runStep _ mGET _ u none [200] hph2 (by decide)
    refine ⟨(get_following fakeTr (get_followers fakeTr s1 u 20).2 u 20).2, ?_, ?_⟩
    · dsimp only
      rw [hpag]
      rfl
    · exact runStep_trans (runStep_trans hstep1 hstep2) hstep3

theorem fake_phase7_id (cfg : Config) (st : RunState Unit)
    (hgraph : ∀ u, dictGetD st.follow_graph u [] = []) :
    phase_unfollow_some fakeTr cfg st = st := by
  unfold phase_unfollow_some
  have haux : ∀ (l : List Str) (s : RunState Unit),
      (∀ u, dictGetD s.follow_graph u [] = []) →
      l.foldl (fun s user =>
        let following := dictGetD s.follow_graph user []
        let regular_following := following.filter (fun f => !(decide (f ∈ s.celebrities)))
        (regular_following.take (min cfg.unfollows_per_user regular_following.length)).foldl
          (fun s2 target => (unfollow_user fakeTr s2 user target).2) s) s = s := by
    intro l
    induction l with
    | nil => intro s _; rfl
    | cons u l ih =>
      intro s h
      rw [List.foldl_cons]
      dsimp only
      rw [h u]
      simp only [List.filter_nil, List.take_nil, List.foldl_nil]
      exact ih s h
  exact haux st.regular_users st hgraph

theorem exists_other_mem (l : List Str) (hnd : l.Nodup) (hlen : 2 ≤ l.length) (u : Str) :
    ∃ a ∈ l, a ≠ u := by
  rcases l with - | ⟨x, - | ⟨y, rest⟩⟩
  · simp at hlen
  · simp at hlen
  · have hxy : x ≠ y := by
      rcases List.nodup_cons.mp hnd with ⟨hx, -⟩
      intro he
      exact hx (he ▸ List.mem_cons_self y rest)
    by_cases hx : x = u
    · exact ⟨y, List.mem_cons_of_mem x (List.mem_cons_self y rest),
        fun he => hxy (hx.trans he.symm)⟩
    · exact ⟨x, List.mem_cons_self x (y :: rest), hx⟩

theorem filter_not_following_ne (l : List Str) (hnd : l.Nodup) (hlen : 2 ≤ l.length)
    (u : Str) :
    l.filter (fun v => decide (v ≠ u) && !(decide (v ∈ ([] : List Str)))) ≠ [] := by
  obtain ⟨a, ha, hane⟩ := exists_other_mem l hnd hlen u
  intro hemp
  have hmem : a ∈ l.filter (fun v => decide (v ≠ u) && !(decide (v ∈ ([] : List Str)))) :=
    List.mem_filter.mpr ⟨ha, by simp [hane]⟩
  rw [hemp] at hmem
  simp at hmem

theorem fake_phase8_step (cfg : Config) (orc : Oracles) (fuel : Nat) (st : RunState Unit)
    (hph : st.mc.phase = runtimeStr) (hf : 1 ≤ fuel)
    (hnd : st.regular_users.Nodup) (hlen : 2 ≤ st.regular_users.length)
    (hgraph : ∀ u, dictGetD st.follow_graph u [] = []) :
    ∃ st', phase_mixed_activity fakeTr cfg orc fuel st = some st' ∧
      RunStep st st' (2 * (3 * st.regular_users.length)) := by
  unfold phase_mixed_activity
  have hinner : ∀ s2 u, u ∈ st.regular_users → SameCtx s2 st →
      ∃ s', (let s3 := (create_tweet fakeTr s2 u tweetContent).2
             let not_following := s3.regular_users.filter
               (fun v => decide (v ≠ u) && !(decide (v ∈ dictGetD s3.follow_graph u [])))
             let s4 := if not_following ≠ [] then
                 (follow_user fakeTr s3 u (orc.choice not_following)).2
               else s3
             (paginate_timeline fakeTr fuel s4 u cfg.pagination_page_size).map (·.2)) =
          some s' ∧ RunStep s2 s' 3 := by
    intro s2 u hu hc
    have hstep1 : RunStep s2 (create_tweet fakeTr s2 u tweetContent).2 1 :=
      fake_api_call_runStep s2 mPOST ("/api/v1/tweets").data u (some tweetContent) [201]
        (hc.1.trans hph) (by decide)
    set s3 := (create_tweet fakeTr s2 u tweetContent).2 with hs3
    have hc3 : SameCtx s3 st := sameCtx_trans (runStep_sameCtx hstep1) hc
    have hg3 : dictGetD s3.follow_graph u [] = [] := by
      rw [hc3.2.2.2.2]
      exact hgraph u
    have hreg3 : s3.regular_users = st.regular_users := hc3.2.1
    have hfilt : s3.regular_users.filter
        (fun v => decide (v ≠ u) && !(decide (v ∈ dictGetD s3.follow_graph u []))) =
        st.regular_users.filter
          (fun v => decide (v ≠ u) && !(decide (v ∈ ([] : List Str)))) := by
      rw [hreg3, hg3]
    have hne : s3.regular_users.filter
        (fun v => decide (v ≠ u) && !(decide (v ∈ dictGetD s3.follow_graph u []))) ≠ [] := by
      rw [hfilt]
      exact filter_not_following_ne st.regular_users hnd hlen u
    have hstep2 : RunStep s3 (follow_user fakeTr s3 u
        (orc.choice (s3.regular_users.filter
          (fun v => decide (v ≠ u) && !(decide (v ∈ dictGetD s3.follow_graph u [])))))).2 1 :=
      fake_api_call_runStep s3 mPOST _ u none [201, 409] (hc3.1.trans hph) (by decide)
    set s4 := (follow_user fakeTr s3 u
      (orc.choice (s3.regular_users.filter
        (fun v => decide (v ≠ u) && !(decide (v ∈ dictGetD s3.follow_graph u [])))))).2 with hs4
    have hc4 : SameCtx s4 st := sameCtx_trans (runStep_sameCtx hstep2) hc3
    obtain ⟨s5, hpag, hstep3⟩ := fake_paginate_timeline_step s4 u cfg.pagination_page_size
      fuel (hc4.1.trans hph) hf
    refine ⟨s5, ?_, runStep_trans (runStep_trans hstep1 hstep2) hstep3⟩
    dsimp only
    rw [if_pos hne, ← hs4, hpag]
    rfl
  have h := foldlM_runStep (List.range 2)
    (fun s _ =>
      s.regular_users.foldlM
        (fun s2 user =>
          let s3 := (create_tweet fakeTr s2 user tweetContent).2
          let not_following := s3.regular_users.filter
            (fun v => decide (v ≠ user) && !(decide (v ∈ dictGetD s3.follow_graph user [])))
          let s4 := if not_following ≠ [] then
              (follow_user fakeTr s3 user (orc.choice not_following)).2
            else s3
          (paginate_timeline fakeTr fuel s4 user cfg.pagination_page_size).map (·.2))
        s)
    (3 * st.regular_users.length) st ?_ st (sameCtx_refl st)
  · obtain ⟨st', h1, h2⟩ := h
    refine ⟨st', h1, ?_⟩
    simpa [Nat.mul_comm] using h2
  · intro s _ _ hctx
    dsimp only
    have hreg : s.regular_users = st.regular_users := hctx.2.1
    rw [hreg]
    exact foldlM_runStep st.regular_users _ 3 st hinner s hctx

theorem api_call_keep {σ : Type} (tr : Tr σ) (st : RunState σ)
    (method endpoint user : Str) (body : Option Str) (expected : List Nat) :
    ((api_call tr st method endpoint user body expected).2).mc.phase = st.mc.phase ∧
    ((api_call tr st method endpoint user body expected).2).regular_users =
      st.regular_users ∧
    ((api_call tr st method endpoint user body expected).2).celebrities = st.celebrities ∧
    ((api_call tr st method endpoint user body expected).2).all_users = st.all_users ∧
    ((api_call tr st method endpoint user body expected).2).follow_graph =
      st.follow_graph ∧
    (st.mc.phase = setupStr →
      ((api_call tr st method endpoint user body expected).2).mc.runtime_requests =
        st.mc.runtime_requests) := by
  rcases api_call_shape tr st method endpoint user body expected with ⟨x, ts', hx⟩
  rw [hx]
  exact ⟨record_phase _ _, rfl, rfl, rfl, rfl, fun h => record_runtime_of_setup _ _ h⟩

theorem create_tweet_keep {σ : Type} (tr : Tr σ) (st : RunState σ) (u c : Str) :
    ((create_tweet tr st u c).2).mc.phase = st.mc.phase ∧
    ((create_tweet tr st u c).2).regular_users = st.regular_users ∧
    ((create_tweet tr st u c).2).celebrities = st.celebrities ∧
    ((create_tweet tr st u c).2).all_users = st.all_users ∧
    ((create_tweet tr st u c).2).follow_graph = st.follow_graph ∧
    (st.mc.phase = setupStr →
      ((create_tweet tr st u c).2).mc.runtime_requests = st.mc.runtime_requests) :=
  api_call_keep tr st mPOST ("/api/v1/tweets").data u (some c) [201]

theorem phase1_reg_fold {σ : Type} (tr : Tr σ) (ids : List Str) :
    ∀ st : RunState σ, st.mc.phase = setupStr →
      ((ids.foldl (fun s uid =>
          (create_tweet tr { s with regular_users := s.regular_users ++ [uid] } uid
            tweetContent).2) st).regular_users = st.regular_users ++ ids ∧
        (ids.foldl (fun s uid =>
          (create_tweet tr { s with regular_users := s.regular_users ++ [uid] } uid
            tweetContent).2) st).celebrities = st.celebrities ∧
        (ids.foldl (fun s uid =>
          (create_tweet tr { s with regular_users := s.regular_users ++ [uid] } uid
            tweetContent).2) st).all_users = st.all_users ∧
        (ids.foldl (fun s uid =>
          (create_tweet tr { s with regular_users := s.regular_users ++ [uid] } uid
            tweetContent).2) st).follow_graph = st.follow_graph ∧
        (ids.foldl (fun s uid =>
          (create_tweet tr { s with regular_users := s.regular_users ++ [uid] } uid
            tweetContent).2) st).mc.phase = setupStr ∧
        (ids.foldl (fun s uid =>
          (create_tweet tr { s with regular_users := s.regular_users ++ [uid] } uid
            tweetContent).2) st).mc.runtime_requests = st.mc.runtime_requests) := by
  induction ids with
  | nil =>
    intro st hph
    simp [hph]
  | cons uid rest ih =>
    intro st hph
    rw [List.foldl_cons]
    have hk := create_tweet_keep tr { st with regular_users := st.regular_users ++ [uid] }
      uid tweetContent
    have hnext := ih ((create_tweet tr { st with regular_users := st.regular_users ++ [uid] }
      uid tweetContent).2) (hk.1.trans hph)
    obtain ⟨h1, h2, h3, h4, h5, h6⟩ := hnext
    refine ⟨?_, ?_, ?_, ?_, h5, ?_⟩
    · rw [h1, hk.2.1]
      simp
    · rw [h2, hk.2.2.1]
    · rw [h3, hk.2.2.2.1]
    · rw [h4, hk.2.2.2.2.1]
    · rw [h6, hk.2.2.2.2.2 hph]

theorem phase1_facts {σ : Type} (tr : Tr σ) (orc : Oracles) (st : RunState σ)
    (hc : orc.celebIds = []) (hph : st.mc.phase = setupStr) :
    (phase_create_users tr orc st).regular_users = st.regular_users ++ orc.regularIds ∧
    (phase_create_users tr orc st).celebrities = st.celebrities ∧
    (phase_create_users tr orc st).all_users =
      (st.regular_users ++ orc.regularIds) ++ st.celebrities ∧
    (phase_create_users tr orc st).follow_graph = st.follow_graph ∧
    (phase_create_users tr orc st).mc.phase = setupStr ∧
    (phase_create_users tr orc st).mc.runtime_requests = st.mc.runtime_requests := by
  unfold phase_create_users
  rw [hc]
  obtain ⟨h1, h2, h3, h4, h5, h6⟩ := phase1_reg_fold tr orc.regularIds st hph
  simp only [List.foldl_nil]
  exact ⟨h1, h2, by rw [h1, h2], h4, h5, h6⟩

theorem phase2_id {σ : Type} (tr : Tr σ) (orc : Oracles) (st : RunState σ)
    (hcel : st.celebrities = []) :
    phase_build_celebrity_followers tr orc st = st := by
  unfold phase_build_celebrity_followers
  rw [hcel]
  rfl

theorem dictGetD_dictSet_nil (g : List (Str × List Str)) (k : Str)
    (h : ∀ u, dictGetD g u ([] : List Str) = []) :
    ∀ u, dictGetD (dictSet g k []) u [] = [] := by
  intro u
  by_cases hu : u = k
  · rw [hu]
    exact dictGetD_dictSet_self g k [] []
  · rw [dictGetD_dictSet_ne _ _ _ _ _ hu]
    exact h u

theorem phase3_zero {σ : Type} (tr : Tr σ) (cfg : Config) (orc : Oracles)
    (hf0 : cfg.follows_per_regular_user = 0) (hs : ∀ l, orc.sample l 0 = []) :
    ∀ (l : List Str) (st : RunState σ), st.celebrities = [] →
      (∀ u, dictGetD st.follow_graph u [] = []) →
      ((l.foldl (fun s user =>
          let others := s.regular_users.filter (fun u => u ≠ user)
          let to_follow :=
            orc.sample others (min cfg.follows_per_regular_user others.length) ++
              s.celebrities
          let s' := { s with follow_graph := dictSet s.follow_graph user to_follow }
          to_follow.foldl (fun s2 target => (follow_user tr s2 user target).2) s') st).mc =
        st.mc ∧
       (l.foldl (fun s user =>
          let others := s.regular_users.filter (fun u => u ≠ user)
          let to_follow :=
            orc.sample others (min cfg.follows_per_regular_user others.length) ++
              s.celebrities
          let s' := { s with follow_graph := dictSet s.follow_graph user to_follow }
          to_follow.foldl (fun s2 target => (follow_user tr s2 user target).2) s')
          st).regular_users = st.regular_users ∧
       (l.foldl (fun s user =>
          let others := s.regular_users.filter (fun u => u ≠ user)
          let to_follow :=
            orc.sample others (min cfg.follows_per_regular_user others.length) ++
              s.celebrities
          let s' := { s with follow_graph := dictSet s.follow_graph user to_follow }
          to_follow.foldl (fun s2 target => (follow_user tr s2 user target).2) s')
          st).celebrities = [] ∧
       (l.foldl (fun s user =>
          let others := s.regular_users.filter (fun u => u ≠ user)
          let to_follow :=
            orc.sample others (min cfg.follows_per_regular_user others.length) ++
              s.celebrities
          let s' := { s with follow_graph := dictSet s.follow_graph user to_follow }
          to_follow.foldl (fun s2 target => (follow_user tr s2 user target).2) s')
          st).all_users = st.all_users ∧
       (∀ u, dictGetD (l.foldl (fun s user =>
          let others := s.regular_users.filter (fun u => u ≠ user)
          let to_follow :=
            orc.sample others (min cfg.follows_per_regular_user others.length) ++
              s.celebrities
          let s' := { s with follow_graph := dictSet s.follow_graph user to_follow }
          to_follow.foldl (fun s2 target => (follow_user tr s2 user target).2) s')
          st).follow_graph u [] = [])) := by
  intro l
  induction l with
  | nil =>
    intro st hcel hg
    exact ⟨rfl, rfl, hcel, rfl, hg⟩
  | cons user rest ih =>
    intro st hcel hg
    rw [List.foldl_cons]
    dsimp only
    have hstart : List.foldl (fun s2 target => (follow_user tr s2 user target).2)
        { st with follow_graph := (dictSet st.follow_graph user
            (orc.sample (st.regular_users.filter (fun u => u ≠ user))
              (min cfg.follows_per_regular_user
                (st.regular_users.filter (fun u => u ≠ user)).length) ++ st.celebrities)) }
        (orc.sample (st.regular_users.filter (fun u => u ≠ user))
          (min cfg.follows_per_regular_user
            (st.regular_users.filter (fun u => u ≠ user)).length) ++ st.celebrities) =
        { st with follow_graph := dictSet st.follow_graph user [] } := by
      rw [hf0, Nat.zero_min, hs, hcel]
      rfl
    rw [hstart]
    exact ih { st with follow_graph := dictSet st.follow_graph user [] } hcel
      (dictGetD_dictSet_nil st.follow_graph user hg)

theorem phase3_facts {σ : Type} (tr : Tr σ) (cfg : Config) (orc : Oracles)
    (st : RunState σ) (hf0 : cfg.follows_per_regular_user = 0)
    (hs : ∀ l, orc.sample l 0 = []) (hcel : st.celebrities = [])
    (hg : ∀ u, dictGetD st.follow_graph u [] = []) :
    (phase_build_social_graph tr cfg orc st).mc = st.mc ∧
    (phase_build_social_graph tr cfg orc st).regular_users = st.regular_users ∧
    (phase_build_social_graph tr cfg orc st).celebrities = [] ∧
    (phase_build_social_graph tr cfg orc st).all_users = st.all_users ∧
    (∀ u, dictGetD (phase_build_social_graph tr cfg orc st).follow_graph u [] = []) := by
  unfold phase_build_social_graph
  exact phase3_zero tr cfg orc hf0 hs st.regular_users st hcel hg

theorem set_phase_phase (m : MetricsCollector) (p : Str) : (m.set_phase p).phase = p := rfl

theorem set_phase_runtime (m : MetricsCollector) (p : Str) :
    (m.set_phase p).runtime_requests = m.runtime_requests := rfl

theorem run_counts_demo (regular : List Str) (h10 : regular.length = 10)
    (hnd : regular.Nodup) (followerIds : Nat → Str)
    (sample : List Str → Nat → List Str) (hs : ∀ l, sample l 0 = [])
    (choice : List Str → Str) (fuel : Nat) (hf : 1 ≤ fuel) :
    ∃ stF : RunState Unit,
      runScenario fakeTr demoConfig ⟨regular, [], followerIds, sample, choice⟩ fuel () =
        some stF ∧
      stF.mc.runtime_requests.length = 100 ∧
      (∀ r ∈ stF.mc.runtime_requests, r.success = true) := by
  set orc : Oracles := ⟨regular, [], followerIds, sample, choice⟩ with horc
  unfold runScenario
  dsimp only
  set st1 : RunState Unit :=
    { initRunState () with mc := (initRunState () : RunState Unit).mc.set_phase setupStr }
    with hst1
  set st2 := phase_create_users fakeTr orc st1 with hst2
  have hph1 : st1.mc.phase = setupStr := rfl
  have h1 := phase1_facts fakeTr orc st1 rfl hph1
  have h2reg : st2.regular_users = regular := by
    rw [hst2, h1.1]
    rfl
  have h2cel : st2.celebrities = [] := by
    rw [hst2, h1.2.1]
    rfl
  have h2all : st2.all_users = regular := by
    rw [hst2, h1.2.2.1]
    show (([] : List Str) ++ regular) ++ ([] : List Str) = regular
    simp
  have h2g : st2.follow_graph = [] := by
    rw [hst2, h1.2.2.2.1]
    rfl
  have h2ph : st2.mc.phase = setupStr := h1.2.2.2.2.1
  have h2rt : st2.mc.runtime_requests = [] := by
    rw [hst2, h1.2.2.2.2.2]
    rfl
  set st3 := phase_build_celebrity_followers fakeTr orc st2 with hst3
  have h3 : st3 = st2 := by
    rw [hst3]
    exact phase2_id fakeTr orc st2 h2cel
  set st4 := phase_build_social_graph fakeTr demoConfig orc st3 with hst4
  have h4 := phase3_facts fakeTr demoConfig orc st3 rfl hs (h3 ▸ h2cel)
    (by
      intro u
      rw [h3, h2g]
      rfl)
  have h4mc : st4.mc = st2.mc := by
    rw [hst4, h4.1, h3]
  have h4reg : st4.regular_users = regular := by
    rw [hst4, h4.2.1, h3, h2reg]
  have h4cel : st4.celebrities = [] := by
    rw [hst4, h4.2.2.1]
  have h4all : st4.all_users = regular := by
    rw [hst4, h4.2.2.2.1, h3, h2all]
  have h4g : ∀ u, dictGetD st4.follow_graph u [] = [] := by
    intro u
    rw [hst4]
    exact h4.2.2.2.2 u
  set st5 : RunState Unit := { st4 with mc := st4.mc.set_phase runtimeStr } with hst5
  have h5ph : st5.mc.phase = runtimeStr := rfl
  have h5rt : st5.mc.runtime_requests = [] := by
    rw [hst5]
    show (st4.mc.set_phase runtimeStr).runtime_requests = []
    rw [set_phase_runtime, h4mc, h2rt]
  have h5reg : st5.regular_users = regular := h4reg
  have h5cel : st5.celebrities = [] := h4cel
  have h5all : st5.all_users = regular := h4all
  have h5g : ∀ u, dictGetD st5.follow_graph u [] = [] := h4g
  set st6 := phase_create_tweets fakeTr demoConfig st5 with hst6
  have hstep4 : RunStep st5 st6 10 := by
    have h := fake_phase4_step demoConfig st5 h5ph
    rw [h5all, h10] at h
    simpa [demoConfig] using h
  have hctx6 : SameCtx st6 st5 := runStep_sameCtx hstep4
  have h6ph : st6.mc.phase = runtimeStr := hctx6.1.trans h5ph
  obtain ⟨st7, h6eq, hstep6'⟩ := fake_phase6_step demoConfig fuel st6 h6ph hf
  have hstep6 : RunStep st6 st7 30 := by
    have hlen6 : st6.all_users.length = 10 := by
      rw [hctx6.2.2.2.1, h5all, h10]
    rw [hlen6] at hstep6'
    exact hstep6'
  have hctx7 : SameCtx st7 st5 := sameCtx_trans (runStep_sameCtx hstep6) hctx6
  have h7g : ∀ u, dictGetD st7.follow_graph u [] = [] := by
    intro u
    rw [hctx7.2.2.2.2]
    exact h5g u
  have h7eq : phase_unfollow_some fakeTr demoConfig st7 = st7 :=
    fake_phase7_id demoConfig st7 h7g
  have h7ph : st7.mc.phase = runtimeStr := hctx7.1.trans h5ph
  have h7nd : st7.regular_users.Nodup := by
    rw [hctx7.2.1, h5reg]
    exact hnd
  have h7len : 2 ≤ st7.regular_users.length := by
    rw [hctx7.2.1, h5reg, h10]
    omega
  obtain ⟨st9, h8eq, hstep8'⟩ := fake_phase8_step demoConfig orc fuel st7 h7ph hf h7nd
    h7len h7g
  have hstep8 : RunStep st7 st9 60 := by
    have hlen7 : st7.regular_users.length = 10 := by
      rw [hctx7.2.1, h5reg, h10]
    rw [hlen7] at hstep8'
    exact hstep8'
  have htotal : RunStep st5 st9 100 :=
    runStep_trans (runStep_trans (runStep_trans hstep4 hstep6) hstep8) (runStep_refl st9)
  refine ⟨st9, ?_, ?_, ?_⟩
  · rw [fake_phase5_zero demoConfig fuel st6 rfl]
    rw [Option.some_bind, h6eq, Option.some_bind, h7eq, h8eq]
  · rw [htotal.2.1, h5rt]
    rfl
  · intro r hr
    rcases htotal.2.2.2.2.2.2 r hr with h | h
    · rw [h5rt] at h
      simp at h
    · exact h

/-- C2 counterexample: with the always-succeeding transport and the claim's
scenario configuration (10 regular users, 0 celebrities, 1 tweet/user, 0
timeline reads), the runtime phase does not record 10 Outcomes - phases 6
and 8 run unconditionally and contribute 90 more. -/
theorem C2_count_counterexample :
    ∃ stF : RunState Unit,
      runScenario fakeTr demoConfig demoOracles 1 () = some stF ∧
      stF.mc.runtime_requests.length ≠ 10 := by
  obtain ⟨stF, heq, hlen, -⟩ := run_counts_demo demoIds (by decide) (by decide)
    (fun _ => []) (fun _ _ => []) (fun _ => rfl) (fun l => l.headD []) 1 (by decide)
  exact ⟨stF, heq, by rw [hlen]; decide⟩

/-- C2 (amended): for the scenario with 10 regular users, 0 celebrities, 1
tweet per user, 0 timeline reads per user (0 graph follows, default 1
unfollow per user, default page size) against a transport that always
returns a success status with cursorless payloads, the runtime phase records
exactly 100 Outcomes across phases 4-8 (10 tweets in phase 4, none in phases
5 and 7, 30 profile checks in phase 6, 60 mixed-activity requests in phase
8), and the resulting runtime error rate is 0% (success rate 100, zero
failures). -/
theorem C2_runtime_outcomes (regular : List Str) (h10 : regular.length = 10)
    (hnd : regular.Nodup) (followerIds : Nat → Str)
    (sample : List Str → Nat → List Str) (hs : ∀ l, sample l 0 = [])
    (choice : List Str → Str) (fuel : Nat) (hf : 1 ≤ fuel) :
    ∃ stF : RunState Unit,
      runScenario fakeTr demoConfig ⟨regular, [], followerIds, sample, choice⟩ fuel () =
        some stF ∧
      stF.mc.runtime_requests.length = 100 ∧
      (stF.mc.get_phase_stats runtimeStr).success_rate = some 100 ∧
      (stF.mc.get_phase_stats runtimeStr).failed = 0 := by
  obtain ⟨stF, heq, hlen, hok⟩ :=
    run_counts_demo regular h10 hnd followerIds sample hs choice fuel hf
  have hne : stF.mc.runtime_requests ≠ [] := by
    intro he
    rw [he] at hlen
    simp at hlen
  have hfilter : stF.mc.runtime_requests.filter (·.success) = stF.mc.runtime_requests :=
    List.filter_eq_self.mpr (fun a ha => by simp [hok a ha])
  refine ⟨stF, heq, hlen, ?_, ?_⟩
  · rw [phase_stats_runtime _ hne]
    show some (((stF.mc.runtime_requests.filter (·.success)).length : ℚ) /
      (stF.mc.runtime_requests.length : ℚ) * 100) = some 100
    rw [hfilter, hlen]
    norm_num
  · rw [phase_stats_runtime _ hne]
    show stF.mc.runtime_requests.length -
      (stF.mc.runtime_requests.filter (·.success)).length = 0
    rw [hfilter, hlen]

/-- Witness for C2 at ten concrete distinct user identifiers. -/
theorem C2_runtime_outcomes_witness :
    ∃ stF : RunState Unit,
      runScenario fakeTr demoConfig ⟨demoIds, [], fun _ => [], fun _ _ => [],
        fun l => l.headD []⟩ 1 () = some stF ∧
      stF.mc.runtime_requests.length = 100 ∧
      (stF.mc.get_phase_stats runtimeStr).success_rate = some 100 ∧
      (stF.mc.get_phase_stats runtimeStr).failed = 0 :=
  C2_runtime_outcomes demoIds (by decide) (by decide) (fun _ => [])
    (fun _ _ => []) (fun _ => rfl) (fun l => l.headD []) 1 (by decide)

/-! ## C9: endpoint normalization - rewriting lemmas for replaceAll -/

theorem replaceAll_nil (pat rep : Str) : replaceAll pat rep [] = [] := by
  simp [replaceAll]

theorem replaceAll_cons_of_neg (pat rep : Str) (c : Char) (cs : Str)
    (h : ¬(leadsList pat (c :: cs) = true ∧ pat ≠ [])) :
    replaceAll pat rep (c :: cs) = c :: replaceAll pat rep cs := by
  simp only [replaceAll]
  rw [if_neg h]

theorem replaceAll_cons_nomatch (pat rep : Str) (c : Char) (cs : Str)
    (h : leadsList pat (c :: cs) = false) :
    replaceAll pat rep (c :: cs) = c :: replaceAll pat rep cs :=
  replaceAll_cons_of_neg pat rep c cs (fun hc => by rw [hc.1] at h; exact Bool.noConfusion h)

theorem replaceAll_cons_match (pat rep : Str) (c : Char) (cs : Str)
    (h1 : leadsList pat (c :: cs) = true) (h2 : pat ≠ []) :
    replaceAll pat rep (c :: cs) = rep ++ replaceAll pat rep ((c :: cs).drop pat.length) := by
  simp only [replaceAll]
  rw [if_pos ⟨h1, h2⟩]

theorem leadsList_refl (p : Str) : leadsList p p = true := by
  induction p with
  | nil => rfl
  | cons a as ih => simp [leadsList, ih]

theorem leadsList_append_right (p : Str) : ∀ a z : Str,
    leadsList p a = true → leadsList p (a ++ z) = true := by
  induction p with
  | nil => intro a z _; rfl
  | cons c cs ih =>
    intro a z h
    cases a with
    | nil => exact absurd h (by simp [leadsList])
    | cons b bs =>
      simp only [leadsList, Bool.and_eq_true, beq_iff_eq] at h
      simp only [List.cons_append, leadsList, Bool.and_eq_true, beq_iff_eq]
      exact ⟨h.1, ih bs z h.2⟩

theorem leadsList_self_append (p x : Str) : leadsList p (p ++ x) = true :=
  leadsList_append_right p p x (leadsList_refl p)

theorem leadsList_length_le (p : Str) : ∀ s : Str,
    leadsList p s = true → p.length ≤ s.length := by
  induction p with
  | nil => intro s _; simp
  | cons c cs ih =>
    intro s h
    cases s with
    | nil => exact absurd h (by simp [leadsList])
    | cons b bs =>
      simp only [leadsList, Bool.and_eq_true] at h
      simpa using Nat.succ_le_succ (ih bs h.2)

theorem leadsList_eq_append (p : Str) : ∀ s : Str,
    leadsList p s = true → s = p ++ s.drop p.length := by
  induction p with
  | nil => intro s _; simp
  | cons c cs ih =>
    intro s h
    cases s with
    | nil => exact absurd h (by simp [leadsList])
    | cons b bs =>
      simp only [leadsList, Bool.and_eq_true, beq_iff_eq] at h
      have := ih bs h.2
      calc b :: bs = c :: (cs ++ bs.drop cs.length) := by rw [← this, h.1]
        _ = (c :: cs) ++ (b :: bs).drop (c :: cs).length := by simp

theorem leadsList_mem (p s : Str) (h : leadsList p s = true) :
    ∀ c ∈ p, c ∈ s := by
  intro c hc
  rw [leadsList_eq_append p s h]
  exact List.mem_append_left _ hc

theorem replaceAll_no_occur (pat rep : Str) (c : Char) (hc : c ∈ pat) :
    ∀ s : Str, c ∉ s → replaceAll pat rep s = s := by
  intro s
  induction s with
  | nil => intro _; simp [replaceAll]
  | cons x xs ih =>
    intro hs
    have hl : leadsList pat (x :: xs) = false := by
      cases hval : leadsList pat (x :: xs) with
      | false => rfl
      | true => exact absurd (leadsList_mem _ _ hval c hc) hs
    rw [replaceAll_cons_nomatch _ _ _ _ hl,
      ih (fun hmem => hs (List.mem_cons_of_mem _ hmem))]

theorem replaceAll_empty_pat (rep : Str) : ∀ s : Str, replaceAll [] rep s = s := by
  intro s
  induction s with
  | nil => simp [replaceAll]
  | cons x xs ih =>
    rw [replaceAll_cons_of_neg _ _ _ _ (fun h => h.2 rfl), ih]

theorem not_mem_replaceAll (pat rep : Str) (c : Char) (hr : c ∉ rep) :
    ∀ s : Str, c ∉ s → c ∉ replaceAll pat rep s := by
  have H : ∀ n : Nat, ∀ s : Str, s.length ≤ n → c ∉ s → c ∉ replaceAll pat rep s := by
    intro n
    induction n with
    | zero =>
      intro s hlen _
      have : s = [] := List.eq_nil_of_length_eq_zero (Nat.le_zero.mp hlen)
      subst this
      simp [replaceAll]
    | succ n ih =>
      intro s hlen hs
      cases s with
      | nil => simp [replaceAll]
      | cons x xs =>
        by_cases hm : leadsList pat (x :: xs) = true ∧ pat ≠ []
        · rw [replaceAll_cons_match pat rep x xs hm.1 hm.2]
          have hplen : 1 ≤ pat.length := by
            have := List.length_pos.mpr hm.2
            omega
          have hdl : ((x :: xs).drop pat.length).length ≤ n := by
            simp only [List.length_drop, List.length_cons]
            simp only [List.length_cons] at hlen
            omega
          have hdm : c ∉ (x :: xs).drop pat.length :=
            fun hmem => hs (List.mem_of_mem_drop hmem)
          simp only [List.mem_append]
          rintro (h | h)
          · exact hr h
          · exact ih _ hdl hdm h
        · rw [replaceAll_cons_of_neg pat rep x xs hm]
          simp only [List.mem_cons, not_or] at hs
          simp only [List.mem_cons, not_or]
          exact ⟨hs.1, ih xs (by simp only [List.length_cons] at hlen; omega) hs.2⟩
  exact fun s => H s.length s (Nat.le_refl _)

theorem replaceAll_leading (pat rep x : Str) (hp : pat ≠ []) :
    replaceAll pat rep (pat ++ x) = rep ++ replaceAll pat rep x := by
  obtain ⟨c, cs, hc⟩ : ∃ c cs, pat = c :: cs := by
    cases pat with
    | nil => exact absurd rfl hp
    | cons c cs => exact ⟨c, cs, rfl⟩
  subst hc
  have happ : (c :: cs) ++ x = c :: (cs ++ x) := rfl
  rw [happ, replaceAll_cons_match _ _ _ _ (by
      rw [← happ]; exact leadsList_self_append _ _) hp]
  congr 1
  rw [← happ]
  rw [List.drop_left]

theorem replaceAll_self (pat rep : Str) (hp : pat ≠ []) :
    replaceAll pat rep pat = rep := by
  have := replaceAll_leading pat rep [] hp
  simpa [replaceAll] using this

theorem replaceAll_long (pat rep : Str) : ∀ s : Str,
    s.length < pat.length → replaceAll pat rep s = s := by
  intro s
  induction s with
  | nil => intro _; simp [replaceAll]
  | cons x xs ih =>
    intro hlen
    have hl : leadsList pat (x :: xs) = false := by
      cases hval : leadsList pat (x :: xs) with
      | false => rfl
      | true => exact absurd (leadsList_length_le pat _ hval) (by omega)
    rw [replaceAll_cons_nomatch _ _ _ _ hl,
      ih (by simp only [List.length_cons] at hlen; omega)]

/-! ## C9: the brace-then-i signature left by id-token insertion -/

theorem braceIB_cons_tail (c : Char) (t : Str) (h : braceIB t = true) :
    braceIB (c :: t) = true := by
  cases t with
  | nil => exact absurd h (by simp [braceIB])
  | cons d rest =>
    simp only [braceIB]
    rw [h]
    simp

theorem braceIB_cons_iff (c : Char) (t : Str) :
    braceIB (c :: t) = true ↔
      (isBraceC c = true ∧ t.head? = some 'i') ∨ braceIB t = true := by
  cases t <;> simp [braceIB]

theorem braceIB_idTok_append (z : Str) : braceIB (idTok ++ z) = true := by
  show braceIB (lbraceC :: 'i' :: 'd' :: rbraceC :: z) = true
  simp [braceIB, isBraceC]

theorem braceIB_mem_brace (s : Str) (h : braceIB s = true) :
    ∃ c ∈ s, isBraceC c = true := by
  induction s with
  | nil => exact absurd h (by simp [braceIB])
  | cons x xs ih =>
    rw [braceIB_cons_iff] at h
    rcases h with ⟨hx, _⟩ | h
    · exact ⟨x, List.mem_cons_self _ _, hx⟩
    · obtain ⟨c, hc, hcb⟩ := ih h
      exact ⟨c, List.mem_cons_of_mem _ hc, hcb⟩

theorem braceIB_mem_i (s : Str) (h : braceIB s = true) : 'i' ∈ s := by
  induction s with
  | nil => exact absurd h (by simp [braceIB])
  | cons x xs ih =>
    rw [braceIB_cons_iff] at h
    rcases h with ⟨_, hh⟩ | h
    · cases xs with
      | nil => simp at hh
      | cons y t =>
        have : y = 'i' := by simpa using hh
        subst this
        exact List.mem_cons_of_mem _ (List.mem_cons_self _ _)
    · exact List.mem_cons_of_mem _ (ih h)

theorem braceIB_append (a b : Str) (h : braceIB (a ++ b) = true) :
    braceIB a = true ∨
      (∃ br, a.getLast? = some br ∧ isBraceC br = true ∧ b.head? = some 'i') ∨
      braceIB b = true := by
  induction a with
  | nil => right; right; simpa using h
  | cons x a' iha =>
    rw [show (x :: a') ++ b = x :: (a' ++ b) from rfl, braceIB_cons_iff] at h
    rcases h with ⟨hx, hh⟩ | h
    · cases a' with
      | nil =>
        right; left
        exact ⟨x, by simp, hx, by simpa using hh⟩
      | cons y a'' =>
        have hy : y = 'i' := by simpa using hh
        left
        rw [braceIB_cons_iff]
        left
        exact ⟨hx, by simp [hy]⟩
    · rcases iha h with h1 | h2 | h3
      · exact Or.inl (braceIB_cons_tail _ _ h1)
      · right; left
        obtain ⟨br, hlast, hbr, hhead⟩ := h2
        cases a' with
        | nil => simp at hlast
        | cons y a'' => exact ⟨br, by rw [List.getLast?_cons_cons]; exact hlast, hbr, hhead⟩
      · right; right; exact h3

theorem replaceAll_cons_head_ne (pat rep : Str) (c : Char) (cs : Str)
    (hpat : ∀ t, pat ≠ c :: t) :
    replaceAll pat rep (c :: cs) = c :: replaceAll pat rep cs := by
  cases pat with
  | nil => rw [replaceAll_empty_pat, replaceAll_empty_pat]
  | cons p ps =>
    have hpc : p ≠ c := fun he => hpat ps (by rw [he])
    apply replaceAll_cons_nomatch
    simp [leadsList, hpc]

theorem braceIB_replaceAll_idTok (pat : Str) (hpat : ∀ t, pat ≠ 'i' :: t) :
    ∀ s : Str, braceIB s = true → braceIB (replaceAll pat idTok s) = true := by
  have H : ∀ n : Nat, ∀ s : Str, s.length ≤ n → braceIB s = true →
      braceIB (replaceAll pat idTok s) = true := by
    intro n
    induction n with
    | zero =>
      intro s hlen h
      have : s = [] := List.eq_nil_of_length_eq_zero (Nat.le_zero.mp hlen)
      subst this
      exact absurd h (by simp [braceIB])
    | succ n ih =>
      intro s hlen h
      cases s with
      | nil => exact absurd h (by simp [braceIB])
      | cons x xs =>
        by_cases hm : leadsList pat (x :: xs) = true ∧ pat ≠ []
        · rw [replaceAll_cons_match pat idTok x xs hm.1 hm.2]
          exact braceIB_idTok_append _
        · rw [replaceAll_cons_of_neg pat idTok x xs hm]
          rw [braceIB_cons_iff] at h
          rcases h with ⟨hx, hh⟩ | h
          · cases xs with
            | nil => simp at hh
            | cons y t =>
              have : y = 'i' := by simpa using hh
              subst this
              rw [replaceAll_cons_head_ne pat idTok 'i' t hpat, braceIB_cons_iff]
              exact Or.inl ⟨hx, by simp⟩
          · have hxl : xs.length ≤ n := by
              simp only [List.length_cons] at hlen
              omega
            exact braceIB_cons_tail _ _ (ih xs hxl h)
  exact fun s => H s.length s (Nat.le_refl _)

theorem braceIB_replaceAll_del (pat : Str) (hbr : ∀ c ∈ pat, isBraceC c = false)
    (hpat : ∀ t, pat ≠ 'i' :: t) :
    ∀ s : Str, braceIB s = true → braceIB (replaceAll pat [] s) = true := by
  have H : ∀ n : Nat, ∀ s : Str, s.length ≤ n → braceIB s = true →
      braceIB (replaceAll pat [] s) = true := by
    intro n
    induction n with
    | zero =>
      intro s hlen h
      have : s = [] := List.eq_nil_of_length_eq_zero (Nat.le_zero.mp hlen)
      subst this
      exact absurd h (by simp [braceIB])
    | succ n ih =>
      intro s hlen h
      cases s with
      | nil => exact absurd h (by simp [braceIB])
      | cons x xs =>
        by_cases hm : leadsList pat (x :: xs) = true ∧ pat ≠ []
        · rw [replaceAll_cons_match pat [] x xs hm.1 hm.2, List.nil_append]
          have hdecomp := leadsList_eq_append pat (x :: xs) hm.1
          rw [hdecomp] at h
          rcases braceIB_append _ _ h with h1 | h2 | h3
          · obtain ⟨c, hc, hcb⟩ := braceIB_mem_brace pat h1
            rw [hbr c hc] at hcb
            exact Bool.noConfusion hcb
          · obtain ⟨br, hlast, hbrt, _⟩ := h2
            have : br ∈ pat := List.mem_of_mem_getLast? hlast
            rw [hbr br this] at hbrt
            exact Bool.noConfusion hbrt
          · have hplen : 1 ≤ pat.length := by
              have := List.length_pos.mpr hm.2
              omega
            have hdl : ((x :: xs).drop pat.length).length ≤ n := by
              simp only [List.length_drop, List.length_cons]
              simp only [List.length_cons] at hlen
              omega
            exact ih _ hdl h3
        · rw [replaceAll_cons_of_neg pat [] x xs hm]
          rw [braceIB_cons_iff] at h
          rcases h with ⟨hx, hh⟩ | h
          · cases xs with
            | nil => simp at hh
            | cons y t =>
              have : y = 'i' := by simpa using hh
              subst this
              rw [replaceAll_cons_head_ne pat [] 'i' t hpat, braceIB_cons_iff]
              exact Or.inl ⟨hx, by simp⟩
          · have hxl : xs.length ≤ n := by
              simp only [List.length_cons] at hlen
              omega
            exact braceIB_cons_tail _ _ (ih xs hxl h)
  exact fun s => H s.length s (Nat.le_refl _)

theorem head_i_replaceAll (pat rep : Str) (hpat : ∀ t, pat ≠ 'i' :: t) (s : Str)
    (h : s.head? = some 'i') : (replaceAll pat rep s).head? = some 'i' := by
  cases s with
  | nil => simp at h
  | cons x xs =>
    have : x = 'i' := by simpa using h
    subst this
    rw [replaceAll_cons_head_ne pat rep 'i' xs hpat]
    rfl

theorem replaceAll_idTok_cases (pat : Str) : ∀ s : Str,
    replaceAll pat idTok s = s ∨ braceIB (replaceAll pat idTok s) = true := by
  intro s
  induction s with
  | nil => exact Or.inl (replaceAll_nil _ _)
  | cons x xs ih =>
    by_cases hm : leadsList pat (x :: xs) = true ∧ pat ≠ []
    · rw [replaceAll_cons_match pat idTok x xs hm.1 hm.2]
      exact Or.inr (braceIB_idTok_append _)
    · rw [replaceAll_cons_of_neg pat idTok x xs hm]
      rcases ih with h | h
      · exact Or.inl (by rw [h])
      · exact Or.inr (braceIB_cons_tail _ _ h)

/-! ## C9: the signature survives the brace strip -/

theorem dropWhile_braceI (s : Str) (h : braceIB s = true) :
    braceIB (s.dropWhile isBraceC) = true ∨
      (s.dropWhile isBraceC).head? = some 'i' := by
  induction s with
  | nil => exact absurd h (by simp [braceIB])
  | cons x xs ih =>
    rw [braceIB_cons_iff] at h
    by_cases hx : isBraceC x = true
    · rw [List.dropWhile_cons_of_pos hx]
      rcases h with ⟨_, hh⟩ | h
      · cases xs with
        | nil => simp at hh
        | cons y t =>
          have : y = 'i' := by simpa using hh
          subst this
          right
          rw [List.dropWhile_cons_of_neg (by decide)]
          rfl
      · exact ih h
    · rw [List.dropWhile_cons_of_neg hx]
      rcases h with ⟨hxb, _⟩ | h
      · exact absurd hxb hx
      · exact Or.inl (braceIB_cons_tail _ _ h)

theorem revDropWhile_decomp (p : Char → Bool) (t : Str) :
    ∃ suf : Str, t = ((t.reverse.dropWhile p).reverse) ++ suf ∧
      ∀ c ∈ suf, p c = true := by
  refine ⟨(t.reverse.takeWhile p).reverse, ?_, ?_⟩
  · calc t = t.reverse.reverse := (List.reverse_reverse t).symm
      _ = (t.reverse.takeWhile p ++ t.reverse.dropWhile p).reverse := by
          rw [List.takeWhile_append_dropWhile p t.reverse]
      _ = (t.reverse.dropWhile p).reverse ++ (t.reverse.takeWhile p).reverse :=
          List.reverse_append _ _
  · intro c hc
    rw [List.mem_reverse] at hc
    exact List.mem_takeWhile_imp hc

theorem stripTrail_braceI (t : Str) (h : braceIB t = true) :
    braceIB ((t.reverse.dropWhile isBraceC).reverse) = true := by
  obtain ⟨suf, hdec, hsuf⟩ := revDropWhile_decomp isBraceC t
  rw [hdec] at h
  rcases braceIB_append _ _ h with h1 | h2 | h3
  · exact h1
  · obtain ⟨br, _, _, hhead⟩ := h2
    cases suf with
    | nil => simp at hhead
    | cons y ys =>
      have hy : y = 'i' := by simpa using hhead
      have hyb := hsuf y (List.mem_cons_self _ _)
      rw [hy] at hyb
      exact absurd hyb (by decide)
  · have hi := braceIB_mem_i suf h3
    exact absurd (hsuf 'i' hi) (by decide)

theorem stripTrail_head (t : Str) (h : t.head? = some 'i') :
    ((t.reverse.dropWhile isBraceC).reverse).head? = some 'i' := by
  obtain ⟨suf, hdec, hsuf⟩ := revDropWhile_decomp isBraceC t
  cases ht2 : (t.reverse.dropWhile isBraceC).reverse with
  | nil =>
    rw [ht2, List.nil_append] at hdec
    rw [hdec] at h
    cases suf with
    | nil => simp at h
    | cons y ys =>
      have hy : y = 'i' := by simpa using h
      have hyb := hsuf y (List.mem_cons_self _ _)
      rw [hy] at hyb
      exact absurd hyb (by decide)
  | cons a t2' =>
    rw [ht2] at hdec
    rw [hdec] at h
    have : a = 'i' := by simpa using h
    simp [this]

theorem stripBraces_braceI (s : Str) (h : braceIB s = true) :
    braceIB (stripBraces s) = true ∨ (stripBraces s).head? = some 'i' := by
  rcases dropWhile_braceI s h with h1 | h2
  · exact Or.inl (stripTrail_braceI _ h1)
  · exact Or.inr (stripTrail_head _ h2)

theorem stripBraces_head_i (s : Str) (h : s.head? = some 'i') :
    (stripBraces s).head? = some 'i' := by
  cases s with
  | nil => simp at h
  | cons x xs =>
    have : x = 'i' := by simpa using h
    subst this
    unfold stripBraces
    rw [List.dropWhile_cons_of_neg (by decide)]
    exact stripTrail_head _ rfl

/-! ## C9: int(_, 16) rejects any string containing the letter i -/

theorem hexTail_mem (s : Str) (h : hexTail s = true) :
    ∀ c ∈ s, isHexDig c = true ∨ c = '_' := by
  have H : ∀ n : Nat, ∀ s : Str, s.length ≤ n → hexTail s = true →
      ∀ c ∈ s, isHexDig c = true ∨ c = '_' := by
    intro n
    induction n with
    | zero =>
      intro s hlen _ c hc
      have : s = [] := List.eq_nil_of_length_eq_zero (Nat.le_zero.mp hlen)
      subst this
      simp at hc
    | succ n ih =>
      intro s hlen h c hc
      rw [hexTail.eq_def] at h
      split at h
      · simp at hc
      · rename_i d cs
        simp only [Bool.and_eq_true] at h
        rcases List.mem_cons.mp hc with hc1 | hc2
        · exact Or.inr hc1
        · rcases List.mem_cons.mp hc2 with hd | hcs
          · exact Or.inl (hd ▸ h.1)
          · exact ih cs (by simp only [List.length_cons] at hlen; omega) h.2 c hcs
      · rename_i d cs _
        simp only [Bool.and_eq_true] at h
        rcases List.mem_cons.mp hc with hd | hcs
        · exact Or.inl (hd ▸ h.1)
        · exact ih cs (by simp only [List.length_cons] at hlen; omega) h.2 c hcs
  exact H s.length s (Nat.le_refl _) h

theorem hexDigits_not_i (s : Str) (h : hexDigits s = true) : 'i' ∉ s := by
  intro hm
  cases s with
  | nil => simp at hm
  | cons c cs =>
    simp only [hexDigits, Bool.and_eq_true] at h
    rcases List.mem_cons.mp hm with hc | hcs
    · rw [← hc] at h
      exact absurd h.1 (by decide)
    · rcases hexTail_mem cs h.2 'i' hcs with h' | h'
      · exact absurd h' (by decide)
      · exact absurd h' (by decide)

theorem int16Body_not_i (s : Str) (h : int16Body s = true) : 'i' ∉ s := by
  intro hm
  rw [int16Body.eq_def] at h
  split at h
  · rename_i rest
    split at h
    · rename_i r
      rcases List.mem_cons.mp hm with hc | hm2
      · exact absurd hc (by decide)
      rcases List.mem_cons.mp hm2 with hc | hm3
      · exact absurd hc (by decide)
      rcases List.mem_cons.mp hm3 with hc | hm4
      · exact absurd hc (by decide)
      · exact hexDigits_not_i r h hm4
    · rcases List.mem_cons.mp hm with hc | hm2
      · exact absurd hc (by decide)
      rcases List.mem_cons.mp hm2 with hc | hm3
      · exact absurd hc (by decide)
      · exact hexDigits_not_i rest h hm3
  · rename_i rest
    split at h
    · rename_i r
      rcases List.mem_cons.mp hm with hc | hm2
      · exact absurd hc (by decide)
      rcases List.mem_cons.mp hm2 with hc | hm3
      · exact absurd hc (by decide)
      rcases List.mem_cons.mp hm3 with hc | hm4
      · exact absurd hc (by decide)
      · exact hexDigits_not_i r h hm4
    · rcases List.mem_cons.mp hm with hc | hm2
      · exact absurd hc (by decide)
      rcases List.mem_cons.mp hm2 with hc | hm3
      · exact absurd hc (by decide)
      · exact hexDigits_not_i rest h hm3
  · exact hexDigits_not_i s h hm

theorem int16Ok_not_i (s : Str) (h : int16Ok s = true) : 'i' ∉ s := by
  intro hm
  have hm1 : 'i' ∈ s.dropWhile isPySpace := by
    have hdec := List.takeWhile_append_dropWhile isPySpace s
    rw [← hdec] at hm
    rcases List.mem_append.mp hm with h1 | h2
    · exact absurd (List.mem_takeWhile_imp h1) (by decide)
    · exact h2
  obtain ⟨suf, hdec2, hsuf⟩ := revDropWhile_decomp isPySpace (s.dropWhile isPySpace)
  have hm2 : 'i' ∈ (((s.dropWhile isPySpace).reverse.dropWhile isPySpace).reverse) := by
    rw [hdec2] at hm1
    rcases List.mem_append.mp hm1 with h1 | h2
    · exact h1
    · exact absurd (hsuf 'i' h2) (by decide)
  simp only [int16Ok] at h
  split at h
  · rename_i r heq
    rw [heq] at hm2
    rcases List.mem_cons.mp hm2 with hc | hr
    · exact absurd hc (by decide)
    · exact int16Body_not_i r h hr
  · rename_i r heq
    rw [heq] at hm2
    rcases List.mem_cons.mp hm2 with hc | hr
    · exact absurd hc (by decide)
    · exact int16Body_not_i r h hr
  · exact int16Body_not_i _ h hm2

/-! ## C9: uuid.UUID rejects strings marked by the id token -/

theorem head_ne_i_pat (p : Str) (hp : p.head? ≠ some 'i') : ∀ t, p ≠ 'i' :: t :=
  fun t he => hp (by rw [he]; rfl)

theorem uuidCleanup_braceI_or_head (s : Str) (h : braceIB s = true) :
    braceIB (uuidCleanup s) = true ∨ (uuidCleanup s).head? = some 'i' := by
  unfold uuidCleanup
  have h1 : braceIB (replaceAll uuidCleanup.urnColon [] s) = true :=
    braceIB_replaceAll_del _ (by decide) (head_ne_i_pat _ (by decide)) s h
  have h2 : braceIB (replaceAll uuidCleanup.uuidColon []
      (replaceAll uuidCleanup.urnColon [] s)) = true :=
    braceIB_replaceAll_del _ (by decide) (head_ne_i_pat _ (by decide)) _ h1
  rcases stripBraces_braceI _ h2 with h3 | h3
  · exact Or.inl (braceIB_replaceAll_del _ (by decide) (head_ne_i_pat _ (by decide)) _ h3)
  · exact Or.inr (head_i_replaceAll _ _ (head_ne_i_pat _ (by decide)) _ h3)

theorem uuidCleanup_head_i (s : Str) (h : s.head? = some 'i') :
    (uuidCleanup s).head? = some 'i' := by
  unfold uuidCleanup
  apply head_i_replaceAll _ _ (head_ne_i_pat _ (by decide))
  apply stripBraces_head_i
  apply head_i_replaceAll _ _ (head_ne_i_pat _ (by decide))
  exact head_i_replaceAll _ _ (head_ne_i_pat _ (by decide)) s h

theorem pyUUIDOk_false_of_mem_i_cleanup (s : Str) (hi : 'i' ∈ uuidCleanup s) :
    pyUUIDOk s = false := by
  have hio : int16Ok (uuidCleanup s) = false := by
    cases hval : int16Ok (uuidCleanup s) with
    | false => rfl
    | true => exact absurd hi (int16Ok_not_i _ hval)
  simp [pyUUIDOk, hio]

theorem pyUUIDOk_false_of_braceI (s : Str) (h : braceIB s = true) :
    pyUUIDOk s = false := by
  apply pyUUIDOk_false_of_mem_i_cleanup
  rcases uuidCleanup_braceI_or_head s h with h1 | h2
  · exact braceIB_mem_i _ h1
  · cases hc : uuidCleanup s with
    | nil => rw [hc] at h2; simp at h2
    | cons y ys =>
      rw [hc] at h2
      have : y = 'i' := by simpa using h2
      rw [this]
      exact List.mem_cons_self _ _

theorem pyUUIDOk_false_of_head_i (s : Str) (h : s.head? = some 'i') :
    pyUUIDOk s = false := by
  apply pyUUIDOk_false_of_mem_i_cleanup
  have h2 := uuidCleanup_head_i s h
  cases hc : uuidCleanup s with
  | nil => rw [hc] at h2; simp at h2
  | cons y ys =>
    rw [hc] at h2
    have : y = 'i' := by simpa using h2
    rw [this]
    exact List.mem_cons_self _ _

theorem pyUUIDOk_head_ne_i (s : Str) (h : pyUUIDOk s = true) : ∀ t, s ≠ 'i' :: t := by
  intro t he
  rw [he, pyUUIDOk_false_of_head_i ('i' :: t) rfl] at h
  exact Bool.noConfusion h

theorem pyUUIDOk_nil_false : pyUUIDOk [] = false := by
  simp [pyUUIDOk, uuidCleanup, replaceAll_nil, stripBraces]

theorem pyUUIDOk_ne_nil (s : Str) (h : pyUUIDOk s = true) : s ≠ [] := by
  intro he
  rw [he, pyUUIDOk_nil_false] at h
  exact Bool.noConfusion h

/-! ## C9: interaction of split with replace -/

theorem pySplit_ne_nil (sep : Char) (s : Str) : pySplit sep s ≠ [] := by
  cases s with
  | nil => simp [pySplit]
  | cons c cs =>
    by_cases hc : c = sep
    · simp [pySplit, hc]
    · rcases hm : pySplit sep cs with _ | ⟨t, ts⟩ <;> simp [pySplit, hc, hm]

theorem pySplit_head_decomp (sep : Char) : ∀ cs : Str, ∃ X : Str,
    cs = (pySplit sep cs).headD [] ++ X := by
  intro cs
  induction cs with
  | nil => exact ⟨[], by simp [pySplit]⟩
  | cons c cs' ih =>
    by_cases hc : c = sep
    · exact ⟨c :: cs', by simp [pySplit, hc]⟩
    · obtain ⟨X, hX⟩ := ih
      rcases hm : pySplit sep cs' with _ | ⟨t, ts⟩
      · exact absurd hm (pySplit_ne_nil sep cs')
      · refine ⟨X, ?_⟩
        rw [hm] at hX
        simp only [List.headD_cons] at hX
        simp only [pySplit, if_neg hc, hm, List.headD_cons, List.cons_append]
        rw [← hX]

theorem pySplit_sepfree_append (sep : Char) : ∀ a b : Str, sep ∉ a →
    pySplit sep (a ++ b) =
      (a ++ (pySplit sep b).headD []) :: (pySplit sep b).tail := by
  intro a
  induction a with
  | nil =>
    intro b _
    rcases hm : pySplit sep b with _ | ⟨t, ts⟩
    · exact absurd hm (pySplit_ne_nil sep b)
    · simp [hm]
  | cons c a' ih =>
    intro b hsep
    have hc : ¬(c = sep) := fun he => hsep (by rw [he]; exact List.mem_cons_self _ _)
    have hrec := ih b (fun hmem => hsep (List.mem_cons_of_mem _ hmem))
    rcases hm : pySplit sep b with _ | ⟨t, ts⟩
    · exact absurd hm (pySplit_ne_nil sep b)
    · rw [hm] at hrec
      simp only [List.headD_cons, List.tail_cons] at hrec ⊢
      show pySplit sep (c :: (a' ++ b)) = ((c :: a') ++ t) :: ts
      simp [pySplit, hc, hrec]

theorem pySplit_sep_cons (sep : Char) (a b : Str) (ha : sep ∉ a) :
    pySplit sep (a ++ sep :: b) = a :: pySplit sep b := by
  rw [pySplit_sepfree_append sep a (sep :: b) ha]
  simp [pySplit]

theorem pySplit_no_sep (sep : Char) (s : Str) (h : sep ∉ s) : pySplit sep s = [s] := by
  have hx := pySplit_sepfree_append sep s [] h
  simp only [List.append_nil] at hx
  rw [hx]
  simp [pySplit]

theorem pySplit_seg_no_sep (sep : Char) : ∀ s : Str, ∀ seg ∈ pySplit sep s, sep ∉ seg := by
  intro s
  induction s with
  | nil =>
    intro seg hseg
    simp [pySplit] at hseg
    subst hseg
    simp
  | cons c cs ih =>
    intro seg hseg
    by_cases hc : c = sep
    · simp only [pySplit, if_pos hc] at hseg
      rcases List.mem_cons.mp hseg with h1 | h2
      · subst h1; simp
      · exact ih seg h2
    · rcases hm : pySplit sep cs with _ | ⟨t, ts⟩
      · exact absurd hm (pySplit_ne_nil sep cs)
      · simp only [pySplit, if_neg hc, hm] at hseg
        rcases List.mem_cons.mp hseg with h1 | h2
        · subst h1
          intro hmem
          rcases List.mem_cons.mp hmem with h3 | h4
          · exact hc h3.symm
          · exact ih t (by rw [hm]; exact List.mem_cons_self _ _) h4
        · exact ih seg (by rw [hm]; exact List.mem_cons_of_mem _ h2)

theorem pySplit_replaceAll (sep : Char) (pat rep : Str) (hsp : sep ∉ pat)
    (hsr : sep ∉ rep) (hp : pat ≠ []) : ∀ s : Str,
    pySplit sep (replaceAll pat rep s) =
      (pySplit sep s).map (replaceAll pat rep) := by
  have H : ∀ n : Nat, ∀ s : Str, s.length ≤ n →
      pySplit sep (replaceAll pat rep s) =
        (pySplit sep s).map (replaceAll pat rep) := by
    intro n
    induction n with
    | zero =>
      intro s hlen
      have : s = [] := List.eq_nil_of_length_eq_zero (Nat.le_zero.mp hlen)
      subst this
      simp [replaceAll_nil, pySplit]
    | succ n ih =>
      intro s hlen
      cases s with
      | nil => simp [replaceAll_nil, pySplit]
      | cons x xs =>
        by_cases hm : leadsList pat (x :: xs) = true ∧ pat ≠ []
        · have hdecomp := leadsList_eq_append pat (x :: xs) hm.1
          set t := (x :: xs).drop pat.length with ht
          have hplen : 1 ≤ pat.length := by
            have := List.length_pos.mpr hp
            omega
          have hlt : t.length ≤ n := by
            rw [ht]
            simp only [List.length_drop, List.length_cons]
            simp only [List.length_cons] at hlen
            omega
          rw [replaceAll_cons_match pat rep x xs hm.1 hm.2, ← ht,
            pySplit_sepfree_append sep rep _ hsr, ih t hlt]
          rcases hspt : pySplit sep t with _ | ⟨u, us⟩
          · exact absurd hspt (pySplit_ne_nil sep t)
          · rw [hdecomp, pySplit_sepfree_append sep pat t hsp, hspt]
            simp only [List.map_cons, List.headD_cons, List.tail_cons]
            rw [replaceAll_leading pat rep u hp]
        · rw [replaceAll_cons_of_neg pat rep x xs hm]
          have hnl : leadsList pat (x :: xs) = false := by
            cases hval : leadsList pat (x :: xs) with
            | false => rfl
            | true => exact absurd ⟨hval, hp⟩ hm
          have hxl : xs.length ≤ n := by
            simp only [List.length_cons] at hlen
            omega
          by_cases hx : x = sep
          · subst hx
            simp [pySplit, ih xs hxl, replaceAll_nil]
          · rcases hsxs : pySplit sep xs with _ | ⟨u, us⟩
            · exact absurd hsxs (pySplit_ne_nil sep xs)
            · obtain ⟨X, hX⟩ := pySplit_head_decomp sep xs
              rw [hsxs] at hX
              simp only [List.headD_cons] at hX
              have hnm2 : leadsList pat (x :: u) = false := by
                cases hval : leadsList pat (x :: u) with
                | false => rfl
                | true =>
                  have hext : leadsList pat ((x :: u) ++ X) = true :=
                    leadsList_append_right _ _ _ hval
                  rw [show (x :: u) ++ X = x :: (u ++ X) from rfl, ← hX] at hext
                  rw [hext] at hnl
                  exact Bool.noConfusion hnl
              have hfu : replaceAll pat rep (x :: u) = x :: replaceAll pat rep u :=
                replaceAll_cons_nomatch _ _ _ _ hnm2
              have hihxs := ih xs hxl
              rw [hsxs] at hihxs
              simp [pySplit, hx, hihxs, hsxs, hfu]
  exact fun s => H s.length s (Nat.le_refl _)

/-! ## C9: the normalization loop invariant and idempotence -/

theorem forall2_mem_left {α β : Type} {R : α → β → Prop} :
    ∀ {l1 : List α} {l2 : List β}, List.Forall₂ R l1 l2 →
      ∀ a ∈ l1, ∃ b ∈ l2, R a b := by
  intro l1 l2 h
  induction h with
  | nil => intro a ha; simp at ha
  | cons hr _ ih =>
    intro a ha
    rcases List.mem_cons.mp ha with he | hm
    · exact ⟨_, List.mem_cons_self _ _, he ▸ hr⟩
    · obtain ⟨b, hb, hRb⟩ := ih a hm
      exact ⟨b, List.mem_cons_of_mem _ hb, hRb⟩

theorem normalizeEndpoint_as_foldl (e : Str) :
    normalizeEndpoint e =
      (pySplit slashC (stripQuery e)).foldl normStep (stripQuery e) := rfl

theorem norm_fold_inv (segsAll : List Str) : ∀ (todo : List Str) (acc : Str),
    (∀ s ∈ todo, slashC ∉ s) →
    List.Forall₂ (fun a s => (a = s ∨ braceIB a = true) ∧
        (s ∈ todo ∨ (pyUUIDOk s = true → braceIB a = true)))
      (pySplit slashC acc) segsAll →
    List.Forall₂ (fun a s => (a = s ∨ braceIB a = true) ∧
        (pyUUIDOk s = true → braceIB a = true))
      (pySplit slashC (todo.foldl normStep acc)) segsAll := by
  intro todo
  induction todo with
  | nil =>
    intro acc _ hinv
    simp only [List.foldl_nil]
    refine hinv.imp (fun a s hp => ⟨hp.1, ?_⟩)
    rcases hp.2 with h | h
    · simp at h
    · exact h
  | cons s0 rest ih =>
    intro acc hfree hinv
    simp only [List.foldl_cons]
    by_cases hok : pyUUIDOk s0 = true
    · have hstep : normStep acc s0 = replaceAll s0 idTok acc := by simp [normStep, hok]
      rw [hstep]
      apply ih
      · intro s hs; exact hfree s (List.mem_cons_of_mem _ hs)
      · have hsfree : slashC ∉ s0 := hfree s0 (List.mem_cons_self _ _)
        rw [pySplit_replaceAll slashC s0 idTok hsfree (by decide)
            (pyUUIDOk_ne_nil s0 hok) acc,
          List.forall₂_map_left_iff]
        apply hinv.imp
        intro a s hp
        constructor
        · rcases hp.1 with h | h
          · rw [h]
            exact replaceAll_idTok_cases s0 s
          · exact Or.inr (braceIB_replaceAll_idTok s0 (pyUUIDOk_head_ne_i s0 hok) a h)
        · rcases hp.2 with hmem | hq
          · rcases List.mem_cons.mp hmem with he | hmem2
            · right
              intro _
              rcases hp.1 with h | h
              · rw [h, he, replaceAll_self _ _ (pyUUIDOk_ne_nil _ hok)]
                decide
              · exact braceIB_replaceAll_idTok _ (pyUUIDOk_head_ne_i _ hok) a h
            · exact Or.inl hmem2
          · right
            intro hs
            exact braceIB_replaceAll_idTok _ (pyUUIDOk_head_ne_i _ hok) a (hq hs)
    · have hstep : normStep acc s0 = acc := by simp [normStep, hok]
      rw [hstep]
      apply ih
      · intro s hs; exact hfree s (List.mem_cons_of_mem _ hs)
      · apply hinv.imp
        intro a s hp
        refine ⟨hp.1, ?_⟩
        rcases hp.2 with hmem | hq
        · rcases List.mem_cons.mp hmem with he | hmem2
          · right
            intro hs
            rw [he] at hs
            exact absurd hs hok
          · exact Or.inl hmem2
        · exact Or.inr hq

theorem norm_output_segs_not_ok (e : Str) :
    ∀ a ∈ pySplit slashC (normalizeEndpoint e), pyUUIDOk a = false := by
  intro a ha
  have hinit : List.Forall₂ (fun a s => (a = s ∨ braceIB a = true) ∧
      (s ∈ pySplit slashC (stripQuery e) ∨ (pyUUIDOk s = true → braceIB a = true)))
      (pySplit slashC (stripQuery e)) (pySplit slashC (stripQuery e)) :=
    List.forall₂_same.mpr (fun x hx => ⟨Or.inl rfl, Or.inl hx⟩)
  have hfinal := norm_fold_inv (pySplit slashC (stripQuery e))
    (pySplit slashC (stripQuery e)) (stripQuery e)
    (pySplit_seg_no_sep slashC (stripQuery e)) hinit
  rw [← normalizeEndpoint_as_foldl] at hfinal
  obtain ⟨s, _, hR⟩ := forall2_mem_left hfinal a ha
  by_cases hb : braceIB a = true
  · exact pyUUIDOk_false_of_braceI a hb
  · rcases hR.1 with h | h
    · cases hval : pyUUIDOk a with
      | false => rfl
      | true => exact absurd (hR.2 (by rw [← h]; exact hval)) hb
    · exact absurd h hb

theorem foldl_normStep_no_ok (l : List Str) (h : ∀ s ∈ l, pyUUIDOk s = false) :
    ∀ acc : Str, l.foldl normStep acc = acc := by
  induction l with
  | nil => intro acc; rfl
  | cons s0 rest ih =>
    intro acc
    simp only [List.foldl_cons]
    rw [show normStep acc s0 = acc by simp [normStep, h s0 (List.mem_cons_self _ _)]]
    exact ih (fun s hs => h s (List.mem_cons_of_mem _ hs)) acc

theorem stripQuery_no_qmark (s : Str) (h : qmarkC ∉ s) : stripQuery s = s := by
  unfold stripQuery
  rw [pySplit_no_sep _ _ h]
  rfl

theorem stripQuery_mem_split (e : Str) : stripQuery e ∈ pySplit qmarkC e := by
  unfold stripQuery
  rcases hm : pySplit qmarkC e with _ | ⟨t, ts⟩
  · exact absurd hm (pySplit_ne_nil qmarkC e)
  · simp

theorem foldl_normStep_not_mem (c : Char) (hc : c ∉ idTok) : ∀ (l : List Str) (acc : Str),
    c ∉ acc → c ∉ l.foldl normStep acc := by
  intro l
  induction l with
  | nil => intro acc h; simpa using h
  | cons s0 rest ih =>
    intro acc h
    simp only [List.foldl_cons]
    apply ih
    by_cases hok : pyUUIDOk s0 = true
    · rw [show normStep acc s0 = replaceAll s0 idTok acc by simp [normStep, hok]]
      exact not_mem_replaceAll s0 idTok c hc acc h
    · rw [show normStep acc s0 = acc by simp [normStep, hok]]
      exact h

theorem qmark_not_mem_norm (e : Str) : qmarkC ∉ normalizeEndpoint e := by
  have hkey : qmarkC ∉ stripQuery e :=
    pySplit_seg_no_sep qmarkC e (stripQuery e) (stripQuery_mem_split e)
  rw [normalizeEndpoint_as_foldl]
  exact foldl_normStep_not_mem qmarkC (by decide) _ _ hkey

theorem normalizeEndpoint_idem (e : Str) :
    normalizeEndpoint (normalizeEndpoint e) = normalizeEndpoint e := by
  have hq : qmarkC ∉ normalizeEndpoint e := qmark_not_mem_norm e
  have hsq : stripQuery (normalizeEndpoint e) = normalizeEndpoint e :=
    stripQuery_no_qmark _ hq
  calc normalizeEndpoint (normalizeEndpoint e)
      = (pySplit slashC (stripQuery (normalizeEndpoint e))).foldl normStep
          (stripQuery (normalizeEndpoint e)) := rfl
    _ = (pySplit slashC (normalizeEndpoint e)).foldl normStep (normalizeEndpoint e) := by
        rw [hsq]
    _ = normalizeEndpoint e :=
        foldl_normStep_no_ok _ (norm_output_segs_not_ok e) _

/-! ## C9: canonical dashed UUIDs are accepted by the uuid.UUID embedding -/

theorem hex_ne_of (c d : Char) (h : isHexDig c = true) (hd : isHexDig d = false) :
    c ≠ d := by
  intro he
  rw [he, hd] at h
  exact Bool.noConfusion h

theorem hex_not_brace (c : Char) (h : isHexDig c = true) : isBraceC c = false := by
  cases hb : isBraceC c with
  | false => rfl
  | true =>
    simp [isBraceC] at hb
    rcases hb with h1 | h1 <;> (subst h1; exact absurd h (by decide))

theorem hex_not_space (c : Char) (h : isHexDig c = true) : isPySpace c = false := by
  cases hb : isPySpace c with
  | false => rfl
  | true =>
    exfalso
    simp [isPySpace] at hb
    rcases hb with ((((h1 | h1) | h1) | h1) | h1) | h1 <;>
      (subst h1; exact absurd h (by decide))

theorem canonUUID_mem (d1 d2 d3 d4 d5 : Str) (hp : canonParts d1 d2 d3 d4 d5) :
    ∀ c ∈ canonUUID d1 d2 d3 d4 d5, isHexDig c = true ∨ c = uuidCleanup.dashC := by
  obtain ⟨-, -, -, -, -, h6, h7, h8, h9, h10⟩ := hp
  simp only [allHex, List.all_eq_true] at h6 h7 h8 h9 h10
  intro c hc
  simp only [canonUUID, List.mem_append, List.mem_cons] at hc
  rcases hc with h | h | h | h | h | h | h | h | h
  · exact Or.inl (h6 c h)
  · exact Or.inr h
  · exact Or.inl (h7 c h)
  · exact Or.inr h
  · exact Or.inl (h8 c h)
  · exact Or.inr h
  · exact Or.inl (h9 c h)
  · exact Or.inr h
  · exact Or.inl (h10 c h)

theorem stripBraces_id_of_mem (s : Str) (h : ∀ c ∈ s, isBraceC c = false) :
    stripBraces s = s := by
  unfold stripBraces
  have h1 : s.dropWhile isBraceC = s := by
    cases s with
    | nil => rfl
    | cons x xs =>
      exact List.dropWhile_cons_of_neg (by simp [h x (List.mem_cons_self _ _)])
  rw [h1]
  have h2 : s.reverse.dropWhile isBraceC = s.reverse := by
    cases hr : s.reverse with
    | nil => rfl
    | cons y ys =>
      have hy : y ∈ s := by
        have hmem : y ∈ s.reverse := by rw [hr]; exact List.mem_cons_self _ _
        simpa using hmem
      exact List.dropWhile_cons_of_neg (by simp [h y hy])
  rw [h2, List.reverse_reverse]

theorem replaceAll_single_del (c : Char) : ∀ s : Str,
    replaceAll [c] [] s = s.filter (fun x => !(x == c)) := by
  intro s
  induction s with
  | nil => simp [replaceAll_nil]
  | cons x xs ih =>
    by_cases hx : x = c
    · subst hx
      rw [replaceAll_cons_match [x] [] x xs (by simp [leadsList]) (by simp)]
      simp [List.filter, ih]
    · have hbeq : (x == c) = false := beq_eq_false_iff_ne.mpr hx
      rw [replaceAll_cons_nomatch [c] [] x xs
        (by simp only [leadsList, Bool.and_true]
            exact beq_eq_false_iff_ne.mpr (fun he => hx he.symm)),
        ih]
      simp [List.filter, hbeq]

theorem hexTail_all_hex : ∀ s : Str, (∀ c ∈ s, isHexDig c = true) → hexTail s = true := by
  have H : ∀ n : Nat, ∀ s : Str, s.length ≤ n →
      (∀ c ∈ s, isHexDig c = true) → hexTail s = true := by
    intro n
    induction n with
    | zero =>
      intro s hlen _
      have : s = [] := List.eq_nil_of_length_eq_zero (Nat.le_zero.mp hlen)
      subst this
      rfl
    | succ n ih =>
      intro s hlen hhex
      rw [hexTail.eq_def]
      split
      · rfl
      · rename_i c cs
        exact absurd (hhex '_' (List.mem_cons_self _ _)) (by decide)
      · rename_i c cs _
        simp only [Bool.and_eq_true]
        refine ⟨hhex c (List.mem_cons_self _ _), ?_⟩
        exact ih cs (by simp only [List.length_cons] at hlen; omega)
          (fun d hd => hhex d (List.mem_cons_of_mem _ hd))
  exact fun s => H s.length s (Nat.le_refl _)

theorem hexDigits_all_hex (s : Str) (hne : s ≠ [])
    (hhex : ∀ c ∈ s, isHexDig c = true) : hexDigits s = true := by
  cases s with
  | nil => exact absurd rfl hne
  | cons c cs =>
    simp only [hexDigits, Bool.and_eq_true]
    exact ⟨hhex c (List.mem_cons_self _ _),
      hexTail_all_hex cs (fun d hd => hhex d (List.mem_cons_of_mem _ hd))⟩

theorem int16Body_all_hex (s : Str) (hne : s ≠ [])
    (hhex : ∀ c ∈ s, isHexDig c = true) : int16Body s = true := by
  rw [int16Body.eq_def]
  split
  · rename_i rest
    exact absurd (hhex 'x' (List.mem_cons_of_mem _ (List.mem_cons_self _ _))) (by decide)
  · rename_i rest
    exact absurd (hhex 'X' (List.mem_cons_of_mem _ (List.mem_cons_self _ _))) (by decide)
  · exact hexDigits_all_hex s hne hhex

theorem int16Ok_all_hex (s : Str) (hne : s ≠ [])
    (hhex : ∀ c ∈ s, isHexDig c = true) : int16Ok s = true := by
  have hdw : s.dropWhile isPySpace = s := by
    cases s with
    | nil => rfl
    | cons c0 cs =>
      exact List.dropWhile_cons_of_neg
        (by simp [hex_not_space c0 (hhex c0 (List.mem_cons_self _ _))])
  have hrev : s.reverse.dropWhile isPySpace = s.reverse := by
    cases hr : s.reverse with
    | nil => rfl
    | cons y ys =>
      have hy : y ∈ s := by
        have hmem : y ∈ s.reverse := by rw [hr]; exact List.mem_cons_self _ _
        simpa using hmem
      exact List.dropWhile_cons_of_neg (by simp [hex_not_space y (hhex y hy)])
  simp only [int16Ok]
  rw [hdw, hrev, List.reverse_reverse]
  split
  · exact absurd (hhex '+' (List.mem_cons_self _ _)) (by decide)
  · exact absurd (hhex (Char.ofNat 45) (List.mem_cons_self _ _)) (by decide)
  · exact int16Body_all_hex s hne hhex

theorem filter_ne_dash_id (d : Str) (h : ∀ c ∈ d, isHexDig c = true) :
    d.filter (fun x => !(x == uuidCleanup.dashC)) = d := by
  apply List.filter_eq_self.mpr
  intro a ha
  simp only [Bool.not_eq_true']
  exact beq_eq_false_iff_ne.mpr (hex_ne_of a _ (h a ha) (by decide))

theorem filter_dash_step (d X : Str) (hd : ∀ c ∈ d, isHexDig c = true) :
    (d ++ uuidCleanup.dashC :: X).filter (fun x => !(x == uuidCleanup.dashC)) =
      d ++ X.filter (fun x => !(x == uuidCleanup.dashC)) := by
  rw [List.filter_append, filter_ne_dash_id d hd]
  congr 1

theorem allHex_mem (d : Str) (h : allHex d = true) : ∀ c ∈ d, isHexDig c = true := by
  simpa [allHex, List.all_eq_true] using h

theorem uuidCleanup_canon (d1 d2 d3 d4 d5 : Str) (hp : canonParts d1 d2 d3 d4 d5) :
    uuidCleanup (canonUUID d1 d2 d3 d4 d5) = d1 ++ (d2 ++ (d3 ++ (d4 ++ d5))) := by
  have hmem := canonUUID_mem d1 d2 d3 d4 d5 hp
  obtain ⟨-, -, -, -, -, h6, h7, h8, h9, h10⟩ := hp
  have hcolon : ':' ∉ canonUUID d1 d2 d3 d4 d5 := by
    intro hc
    rcases hmem ':' hc with h | h
    · exact absurd h (by decide)
    · exact absurd h (by decide)
  unfold uuidCleanup
  rw [replaceAll_no_occur _ _ ':' (by decide) _ hcolon,
    replaceAll_no_occur _ _ ':' (by decide) _ hcolon,
    stripBraces_id_of_mem _ (fun c hc => by
      rcases hmem c hc with h | h
      · exact hex_not_brace c h
      · rw [h]; decide),
    replaceAll_single_del]
  show (canonUUID d1 d2 d3 d4 d5).filter (fun x => !(x == uuidCleanup.dashC)) = _
  rw [show canonUUID d1 d2 d3 d4 d5 = d1 ++ uuidCleanup.dashC ::
      (d2 ++ uuidCleanup.dashC :: (d3 ++ uuidCleanup.dashC ::
        (d4 ++ uuidCleanup.dashC :: d5))) from rfl,
    filter_dash_step d1 _ (allHex_mem d1 h6),
    filter_dash_step d2 _ (allHex_mem d2 h7),
    filter_dash_step d3 _ (allHex_mem d3 h8),
    filter_dash_step d4 _ (allHex_mem d4 h9),
    filter_ne_dash_id d5 (allHex_mem d5 h10)]

theorem canonUUID_hexcat_mem (d1 d2 d3 d4 d5 : Str) (hp : canonParts d1 d2 d3 d4 d5) :
    ∀ c ∈ d1 ++ (d2 ++ (d3 ++ (d4 ++ d5))), isHexDig c = true := by
  obtain ⟨-, -, -, -, -, h6, h7, h8, h9, h10⟩ := hp
  intro c hc
  simp only [List.mem_append] at hc
  rcases hc with h | h | h | h | h
  · exact allHex_mem d1 h6 c h
  · exact allHex_mem d2 h7 c h
  · exact allHex_mem d3 h8 c h
  · exact allHex_mem d4 h9 c h
  · exact allHex_mem d5 h10 c h

theorem pyUUIDOk_canon (d1 d2 d3 d4 d5 : Str) (hp : canonParts d1 d2 d3 d4 d5) :
    pyUUIDOk (canonUUID d1 d2 d3 d4 d5) = true := by
  have hlen : (d1 ++ (d2 ++ (d3 ++ (d4 ++ d5)))).length = 32 := by
    obtain ⟨h1, h2, h3, h4, h5, -⟩ := hp
    simp [h1, h2, h3, h4, h5]
  have hne : d1 ++ (d2 ++ (d3 ++ (d4 ++ d5))) ≠ [] := by
    intro he
    rw [he] at hlen
    simp at hlen
  unfold pyUUIDOk
  rw [uuidCleanup_canon d1 d2 d3 d4 d5 hp, hlen,
    int16Ok_all_hex _ hne (canonUUID_hexcat_mem d1 d2 d3 d4 d5 hp)]
  rfl

/-! ## C9: the collapse of /users/A/tweets for canonical A -/

theorem leadsList_false_head (p0 : Char) (ps : Str) (x : Char) (xs : Str)
    (h : p0 ≠ x) : leadsList (p0 :: ps) (x :: xs) = false := by
  simp [leadsList, h]

theorem leadsList_false_second (p0 p1 : Char) (ps : Str) (x y : Char) (t : Str)
    (h : p1 ≠ y) : leadsList (p0 :: p1 :: ps) (x :: y :: t) = false := by
  simp [leadsList, h]

theorem pySplit_cons_sep (sep : Char) (b : Str) :
    pySplit sep (sep :: b) = [] :: pySplit sep b := by
  simp [pySplit]

theorem replaceAll_canon_path (d1 d2 d3 d4 d5 : Str) (hp : canonParts d1 d2 d3 d4 d5) :
    replaceAll (canonUUID d1 d2 d3 d4 d5) idTok
      (("/users/").data ++ canonUUID d1 d2 d3 d4 d5 ++ ("/tweets").data) =
      ("/users/").data ++ idTok ++ ("/tweets").data := by
  obtain ⟨c0, c1, dr, hd1⟩ : ∃ c0 c1 dr, d1 = c0 :: c1 :: dr := by
    have h1 := hp.1
    cases d1 with
    | nil => simp at h1
    | cons a t =>
      cases t with
      | nil => simp at h1
      | cons b t2 => exact ⟨a, b, t2, rfl⟩
  have hc0 : isHexDig c0 = true :=
    allHex_mem d1 hp.2.2.2.2.2.1 c0 (by rw [hd1]; exact List.mem_cons_self _ _)
  have hc1 : isHexDig c1 = true :=
    allHex_mem d1 hp.2.2.2.2.2.1 c1
      (by rw [hd1]; exact List.mem_cons_of_mem _ (List.mem_cons_self _ _))
  have hAr : canonUUID d1 d2 d3 d4 d5 = c0 :: c1 ::
      (dr ++ uuidCleanup.dashC :: (d2 ++ uuidCleanup.dashC ::
        (d3 ++ uuidCleanup.dashC :: (d4 ++ uuidCleanup.dashC :: d5)))) := by
    unfold canonUUID
    rw [hd1]
    rfl
  have hAlen : (canonUUID d1 d2 d3 d4 d5).length = 36 := by
    obtain ⟨h1, h2, h3, h4, h5, -⟩ := hp
    simp [canonUUID, h1, h2, h3, h4, h5]
  have hAne : canonUUID d1 d2 d3 d4 d5 ≠ [] := by
    rw [hAr]
    simp
  have husers : ("/users/").data = ['/', 'u', 's', 'e', 'r', 's', '/'] := by decide
  have hpath : ("/users/").data ++ canonUUID d1 d2 d3 d4 d5 ++ ("/tweets").data =
      '/' :: 'u' :: 's' :: 'e' :: 'r' :: 's' :: '/' ::
        (canonUUID d1 d2 d3 d4 d5 ++ ("/tweets").data) := by
    rw [List.append_assoc, husers]
    rfl
  rw [hpath]
  rw [replaceAll_cons_nomatch _ idTok '/' _
      (by rw [hAr]; exact leadsList_false_head _ _ _ _ (hex_ne_of c0 '/' hc0 (by decide)))]
  rw [replaceAll_cons_nomatch _ idTok 'u' _
      (by rw [hAr]; exact leadsList_false_head _ _ _ _ (hex_ne_of c0 'u' hc0 (by decide)))]
  rw [replaceAll_cons_nomatch _ idTok 's' _
      (by rw [hAr]; exact leadsList_false_head _ _ _ _ (hex_ne_of c0 's' hc0 (by decide)))]
  rw [replaceAll_cons_nomatch _ idTok 'e' _
      (by rw [hAr]; exact leadsList_false_second _ _ _ _ _ _ (hex_ne_of c1 'r' hc1 (by decide)))]
  rw [replaceAll_cons_nomatch _ idTok 'r' _
      (by rw [hAr]; exact leadsList_false_head _ _ _ _ (hex_ne_of c0 'r' hc0 (by decide)))]
  rw [replaceAll_cons_nomatch _ idTok 's' _
      (by rw [hAr]; exact leadsList_false_head _ _ _ _ (hex_ne_of c0 's' hc0 (by decide)))]
  rw [replaceAll_cons_nomatch _ idTok '/' _
      (by rw [hAr]; exact leadsList_false_head _ _ _ _ (hex_ne_of c0 '/' hc0 (by decide)))]
  rw [replaceAll_leading _ idTok _ hAne]
  rw [replaceAll_long _ idTok (("/tweets").data) (by rw [hAlen]; decide)]
  rw [List.append_assoc, husers]
  rfl

theorem pyUUIDOk_users_false : pyUUIDOk (("users").data) = false := by
  have hclean : uuidCleanup (("users").data) = ("users").data := by
    unfold uuidCleanup
    rw [replaceAll_no_occur uuidCleanup.urnColon [] ':' (by decide)
        (("users").data) (by decide),
      replaceAll_no_occur uuidCleanup.uuidColon [] ':' (by decide)
        (("users").data) (by decide),
      stripBraces_id_of_mem (("users").data) (by decide),
      replaceAll_no_occur [uuidCleanup.dashC] [] uuidCleanup.dashC (by decide)
        (("users").data) (by decide)]
  simp [pyUUIDOk, hclean]

theorem pyUUIDOk_tweets_false : pyUUIDOk (("tweets").data) = false := by
  have hclean : uuidCleanup (("tweets").data) = ("tweets").data := by
    unfold uuidCleanup
    rw [replaceAll_no_occur uuidCleanup.urnColon [] ':' (by decide)
        (("tweets").data) (by decide),
      replaceAll_no_occur uuidCleanup.uuidColon [] ':' (by decide)
        (("tweets").data) (by decide),
      stripBraces_id_of_mem (("tweets").data) (by decide),
      replaceAll_no_occur [uuidCleanup.dashC] [] uuidCleanup.dashC (by decide)
        (("tweets").data) (by decide)]
  simp [pyUUIDOk, hclean]

theorem normalizeEndpoint_canon (d1 d2 d3 d4 d5 : Str) (hp : canonParts d1 d2 d3 d4 d5) :
    normalizeEndpoint
        (("/users/").data ++ canonUUID d1 d2 d3 d4 d5 ++ ("/tweets").data) =
      ("/users/").data ++ idTok ++ ("/tweets").data := by
  have hmem := canonUUID_mem d1 d2 d3 d4 d5 hp
  have hok := pyUUIDOk_canon d1 d2 d3 d4 d5 hp
  set A := canonUUID d1 d2 d3 d4 d5 with hA
  set p := ("/users/").data ++ A ++ ("/tweets").data with hP
  have hslashA : slashC ∉ A := by
    intro hc
    rcases hmem slashC hc with h | h
    · exact absurd h (by decide)
    · exact absurd h (by decide)
  have hqA : qmarkC ∉ A := by
    intro hc
    rcases hmem qmarkC hc with h | h
    · exact absurd h (by decide)
    · exact absurd h (by decide)
  have hqp : qmarkC ∉ p := by
    rw [hP]
    intro hc
    rcases List.mem_append.mp hc with h12 | h3
    · rcases List.mem_append.mp h12 with h1 | h2
      · exact absurd h1 (by decide)
      · exact hqA h2
    · exact absurd h3 (by decide)
  have hsq : stripQuery p = p := stripQuery_no_qmark p hqp
  have hsplit : pySplit slashC p = [[], ("users").data, A, ("tweets").data] := by
    have h1 : p = slashC ::
        (("users").data ++ slashC :: (A ++ slashC :: ("tweets").data)) := by
      rw [hP, List.append_assoc]
      rfl
    rw [h1, pySplit_cons_sep,
      pySplit_sep_cons slashC (("users").data) _ (by decide),
      pySplit_sep_cons slashC A _ hslashA,
      pySplit_no_sep slashC (("tweets").data) (by decide)]
  rw [normalizeEndpoint_as_foldl, hsq, hsplit]
  simp only [List.foldl_cons, List.foldl_nil]
  rw [show normStep p [] = p by simp [normStep, pyUUIDOk_nil_false]]
  have hu : pyUUIDOk ['u', 's', 'e', 'r', 's'] = false := pyUUIDOk_users_false
  have ht : pyUUIDOk ['t', 'w', 'e', 'e', 't', 's'] = false := pyUUIDOk_tweets_false
  rw [show normStep p (("users").data) = p by simp [normStep, hu]]
  rw [show normStep p A = replaceAll A idTok p by simp [normStep, hok]]
  rw [show ∀ x : Str, normStep x (("tweets").data) = x from
    fun x => by simp [normStep, ht]]
  rw [hP, hA]
  exact replaceAll_canon_path d1 d2 d3 d4 d5 hp

/-- C9: the path-to-bucket-key normalization of `LoadTester.api_call` is a pure,
deterministic function of the raw path (equal raw paths give equal keys), it is
idempotent (normalizing an already-normalized key leaves it unchanged), and for
any two canonical dashed UUID identifiers A and B (8-4-4-4-12 hexadecimal
groups, both accepted by the embedded `uuid.UUID` test) it maps
`/users/A/tweets` and `/users/B/tweets` to the same bucket key, namely
`/users/\x7bid\x7d/tweets`. -/
theorem C9_normalization_properties (a1 a2 a3 a4 a5 b1 b2 b3 b4 b5 : Str)
    (ha : canonParts a1 a2 a3 a4 a5) (hb : canonParts b1 b2 b3 b4 b5) :
    (∀ p q : Str, p = q → normalizeEndpoint p = normalizeEndpoint q) ∧
    (∀ p : Str, normalizeEndpoint (normalizeEndpoint p) = normalizeEndpoint p) ∧
    pyUUIDOk (canonUUID a1 a2 a3 a4 a5) = true ∧
    normalizeEndpoint
        (("/users/").data ++ canonUUID a1 a2 a3 a4 a5 ++ ("/tweets").data) =
      normalizeEndpoint
        (("/users/").data ++ canonUUID b1 b2 b3 b4 b5 ++ ("/tweets").data) ∧
    normalizeEndpoint
        (("/users/").data ++ canonUUID a1 a2 a3 a4 a5 ++ ("/tweets").data) =
      ("/users/").data ++ idTok ++ ("/tweets").data := by
  refine ⟨fun p q h => by rw [h], normalizeEndpoint_idem,
    pyUUIDOk_canon a1 a2 a3 a4 a5 ha, ?_, ?_⟩
  · rw [normalizeEndpoint_canon a1 a2 a3 a4 a5 ha,
      normalizeEndpoint_canon b1 b2 b3 b4 b5 hb]
  · exact normalizeEndpoint_canon a1 a2 a3 a4 a5 ha

/-- Witness for C9 at two concrete canonical UUIDs. -/
theorem C9_normalization_witness :
    canonParts (("123e4567").data) (("e89b").data) (("12d3").data) (("a456").data)
      (("426614174000").data) ∧
    canonParts (("00000000").data) (("0000").data) (("0000").data) (("0000").data)
      (("000000000000").data) ∧
    normalizeEndpoint (("/users/").data ++
        canonUUID (("123e4567").data) (("e89b").data) (("12d3").data)
          (("a456").data) (("426614174000").data) ++ ("/tweets").data) =
      ("/users/").data ++ idTok ++ ("/tweets").data :=
  ⟨by unfold canonParts; decide, by unfold canonParts; decide,
    (C9_normalization_properties (("123e4567").data) (("e89b").data)
      (("12d3").data) (("a456").data) (("426614174000").data)
      (("00000000").data) (("0000").data) (("0000").data) (("0000").data)
      (("000000000000").data) (by unfold canonParts; decide)
      (by unfold canonParts; decide)).2.2.2.2⟩
